import Mathlib

/-!
Verification development for the subvibe subtitle library (SRT/WebVTT
parsers and generators).  Strings are modelled as lists of characters and
JavaScript string/number primitives are embedded explicitly; each
definition mirrors the TypeScript source it is named after.  JavaScript
`NaN` is modelled as `Option.none`, thrown exceptions as `Option.none`
results of the throwing function, and `undefined` record fields as
`Option.none` fields.
-/

set_option maxRecDepth 10000

/-- Strings are lists of characters. -/
abbrev Str := List Char

/-- Shorthand to turn a Lean string literal into the character-list model. -/
def strOf (s : String) : Str := s.data

/-- The whitespace set recognised by JavaScript `trim` / `\s` (ASCII part). -/
def isJsWs (c : Char) : Bool :=
  c = ' ' || c = '\t' || c = '\n' || c = '\r' || c = '\x0b' || c = '\x0c'

/-- JavaScript `String.prototype.trimStart`. -/
def jsTrimStart (s : Str) : Str := s.dropWhile isJsWs

/-- JavaScript `String.prototype.trimEnd`. -/
def jsTrimEnd (s : Str) : Str := (s.reverse.dropWhile isJsWs).reverse

/-- JavaScript `String.prototype.trim`. -/
def jsTrim (s : Str) : Str := jsTrimEnd (jsTrimStart s)

/-- Fuel-based worker for the newline split. -/
def splitLinesF : Nat → Str → List Str
  | _, [] => [[]]
  | 0, s => [s]
  | f + 1, c :: rest =>
    if c = '\r' && rest.head? = some '\n' then [] :: splitLinesF f rest.tail
    else if c = '\n' then [] :: splitLinesF f rest
    else
      match splitLinesF f rest with
      | h :: t => (c :: h) :: t
      | [] => [[c]]

/-- `content.split(/\r?\n/)`: split on newlines, consuming a `\r` only when
it immediately precedes a `\n`. -/
def splitLines (s : Str) : List Str := splitLinesF s.length s

/-- Split on every character satisfying `p` (JS `split` with a one-character
class regex such as `/[,\.]/`). -/
def splitOnPred (p : Char → Bool) : Str → List Str
  | [] => [[]]
  | c :: rest =>
    if p c then [] :: splitOnPred p rest
    else
      match splitOnPred p rest with
      | h :: t => (c :: h) :: t
      | [] => [[c]]

/-- JS `s.split(sep)` for a fixed non-empty separator string (fuel-based so
that it reduces in the kernel; every step consumes at least one character,
so `s.length` fuel is always enough). -/
def splitOnStrF (sep : Str) : Nat → Str → List Str
  | _, [] => [[]]
  | 0, s => [s]
  | f + 1, c :: rest =>
    if sep ≠ [] ∧ sep.isPrefixOf (c :: rest) then
      [] :: splitOnStrF sep f (rest.drop (sep.length - 1))
    else
      match splitOnStrF sep f rest with
      | h :: t => (c :: h) :: t
      | [] => [[c]]

/-- JS `s.split(sep)` for a fixed non-empty separator string. -/
def splitOnStr (sep : Str) (s : Str) : List Str := splitOnStrF sep s.length s

/-- Fuel-based worker for the split on `/\s+/`. -/
def splitWsRunsF : Nat → Str → List Str
  | _, [] => [[]]
  | 0, s => [s]
  | f + 1, c :: rest =>
    if isJsWs c then [] :: splitWsRunsF f (rest.dropWhile isJsWs)
    else
      match splitWsRunsF f rest with
      | h :: t => (c :: h) :: t
      | [] => [[c]]

/-- JS `s.split(/\s+/)`: maximal whitespace runs are the separators. -/
def splitWsRuns (s : Str) : List Str := splitWsRunsF s.length s

/-- JS `String.prototype.padStart(n, c)`. -/
def padStart (n : Nat) (c : Char) (s : Str) : Str :=
  List.replicate (n - s.length) c ++ s

/-- JS `String.prototype.padEnd(n, c)`. -/
def padEnd (n : Nat) (c : Char) (s : Str) : Str :=
  s ++ List.replicate (n - s.length) c

/-- `needle.isPrefixOf hay` as used for JS `startsWith`. -/
def startsWithStr (pre s : Str) : Bool := pre.isPrefixOf s

/-- JS `String.prototype.includes`. -/
def containsSub (needle : Str) : Str → Bool
  | [] => needle.isEmpty
  | c :: rest => needle.isPrefixOf (c :: rest) || containsSub needle rest

/-- JS `String.prototype.indexOf` (first occurrence). -/
def indexOfSub (needle : Str) : Str → Option Nat
  | [] => if needle.isEmpty then some 0 else none
  | c :: rest =>
    if needle.isPrefixOf (c :: rest) then some 0
    else (indexOfSub needle rest).map (· + 1)

/-- JS `s.replace(pat, repl)` with string arguments: first occurrence only. -/
def replaceFirst (pat repl : Str) : Str → Str
  | [] => []
  | c :: rest =>
    if pat ≠ [] ∧ pat.isPrefixOf (c :: rest) then
      repl ++ (c :: rest).drop pat.length
    else c :: replaceFirst pat repl rest

/-- The digit value of a decimal digit character. -/
def digitVal (c : Char) : Nat := c.toNat - '0'.toNat

/-- Value of an all-digit string. -/
def digitsToNat (s : Str) : Nat := s.foldl (fun a c => a * 10 + digitVal c) 0

/-- The regex test `/^\d+$/`. -/
def isAllDigits (s : Str) : Bool := !s.isEmpty && s.all Char.isDigit

/-- JS `parseInt(s, 10)`: skip leading whitespace, optional sign, then the
maximal leading digit run; `NaN` (= `none`) when no digit is found. -/
def jsParseInt (s : Str) : Option Int :=
  let t := s.dropWhile isJsWs
  let sgn : Int := if t.head? = some '-' then -1 else 1
  let t := if t.head? = some '-' || t.head? = some '+' then t.tail else t
  let ds := t.takeWhile Char.isDigit
  if ds.isEmpty then none else some (sgn * (digitsToNat ds : Int))

/-- JS `Number(s)` restricted to the decimal-integer forms the parsers feed
it: trimmed empty string is `0`, an optional sign followed by digits is the
signed value, anything else is `NaN` (= `none`).  (Hexadecimal, exponent and
fractional `Number` forms are not modelled; no parser path in this
development can produce them.) -/
def jsNum (s : Str) : Option Int :=
  let t := jsTrim s
  if t.isEmpty then some 0
  else
    let sgn : Int := if t.head? = some '-' then -1 else 1
    let t' := if t.head? = some '-' || t.head? = some '+' then t.tail else t
    if isAllDigits t' then some (sgn * (digitsToNat t' : Int)) else none

/-- Fuel-based worker for decimal rendering (`n` itself is always enough
fuel). -/
def natToStrF : Nat → Nat → Str
  | 0, n => [Nat.digitChar n]
  | f + 1, n =>
    if n < 10 then [Nat.digitChar n]
    else natToStrF f (n / 10) ++ [Nat.digitChar (n % 10)]

/-- JS `n.toString()` for a natural number. -/
def natToStr (n : Nat) : Str := natToStrF n n

/-- JS `n.toString()` for an integer. -/
def intToStr (n : Int) : Str :=
  if n < 0 then '-' :: natToStr (-n).toNat else natToStr n.toNat

/-! ### A small matcher for the character-class regexes of the source

Each regex used by the source is a sequence of bounded character-class
items (optionally grouped into an ordered alternation, expanding `(x)?`
into the two alternatives with the present branch first, as JS backtracking
tries them). -/

/-- One regex item: a character class with repetition bounds
(`hi = none` means unbounded, i.e. `+`). -/
structure RItem where
  cls : Char → Bool
  lo : Nat
  hi : Option Nat

/-- Greedy, backtracking match of an item sequence at the start of `s`,
returning the number of characters the JS regex engine would consume. -/
def matchSeq : List RItem → Str → Option Nat
  | [], _ => some 0
  | it :: ps, s =>
    let avail :=
      match it.hi with
      | some h => min h (s.takeWhile it.cls).length
      | none => (s.takeWhile it.cls).length
    ((List.range (avail + 1 - it.lo)).map (fun j => avail - j)).findSome?
      (fun k => (matchSeq ps (s.drop k)).map (k + ·))

/-- First alternative of an ordered alternation that matches at the start of
`s` (JS alternation semantics). -/
def matchAlt (alts : List (List RItem)) (s : Str) : Option Nat :=
  alts.findSome? (fun p => matchSeq p s)

/-- Unanchored regex `test`: does the sequence match at any position? -/
def searchSeq (p : List RItem) : Str → Bool
  | [] => (matchSeq p []).isSome
  | c :: rest => (matchSeq p (c :: rest)).isSome || searchSeq p rest

/-- Anchored (`^...$`) match: some choice of repetition counts consumes the
whole string. -/
def matchExact : List RItem → Str → Bool
  | [], s => s.isEmpty
  | it :: ps, s =>
    let avail :=
      match it.hi with
      | some h => min h (s.takeWhile it.cls).length
      | none => (s.takeWhile it.cls).length
    (List.range (avail + 1)).any (fun k => it.lo ≤ k && matchExact ps (s.drop k))

/-- Item: a digit, repeated between `n` and `m` times. -/
def rD (n m : Nat) : RItem := ⟨Char.isDigit, n, some m⟩

/-- Item: one or more digits (`\d+`). -/
def rDplus : RItem := ⟨Char.isDigit, 1, none⟩

/-- Item: a single literal character. -/
def rC (c : Char) : RItem := ⟨(· = c), 1, some 1⟩

/-- Item: a single `[,.]`. -/
def rCommaDot : RItem := ⟨(fun c => c = ',' || c = '.'), 1, some 1⟩

/-- Item: a single `[:.]`. -/
def rColonDot : RItem := ⟨(fun c => c = ':' || c = '.'), 1, some 1⟩

/-! ### core-utils.ts -/

/-- The five search patterns of `hasTimestamp` in `core-utils.ts`. -/
def hasTimestampPatterns : List (List RItem) :=
  [ [rD 1 2, rC ':', rD 1 2],                                -- /\d{1,2}:\d{1,2}/
    [rD 1 2, rC ':', rD 1 2, rC ':', rD 1 2],                -- /\d{1,2}:\d{1,2}:\d{1,2}/
    [rD 1 2, rColonDot, rD 1 3],                             -- /\d{1,2}[:.]\d{1,3}/
    [rD 1 2, rC ':', rD 1 2, rColonDot, rD 1 3],             -- /\d{1,2}:\d{1,2}[:.]\d{1,3}/
    [rD 1 2, rC ':', rD 1 2, rC ':', rD 1 2, rColonDot, rD 1 3] ]

/-- `hasTimestamp` of `core-utils.ts`: `patterns.some(p => p.test(text))`. -/
def hasTimestamp (text : Str) : Bool :=
  hasTimestampPatterns.any (fun p => searchSeq p text)

/-- The regex test `/^\d+\.\d+$/`. -/
def reDigitsDotDigits (s : Str) : Bool := matchExact [rDplus, rC '.', rDplus] s

/-- The regex test `/^\d{1,2}:\d{2}[,.]\d{3}$/`. -/
def reMmSsMs (s : Str) : Bool :=
  matchExact [rD 1 2, rC ':', rD 2 2, rCommaDot, rD 3 3] s

/-- `parseTimeString` of `core-utils.ts`.  `none` models a `NaN` result. -/
def parseTimeString (timeStr : Str) : Option Int :=
  let t := jsTrim timeStr
  if reDigitsDotDigits t then
    -- SS.mmm branch: const [seconds, ms] = timeStr.split('.')
    match splitOnPred (· = '.') t with
    | se :: ms :: _ => do
      let a ← jsParseInt se
      let b ← jsParseInt (padEnd 3 '0' ms)
      some (a * 1000 + b)
    | _ => none
  else if reMmSsMs t then
    -- MM:SS,mmm branch
    match splitOnPred (fun c => c = ',' || c = '.') t with
    | time :: ms :: _ =>
      (match splitOnPred (· = ':') time with
       | mins :: secs :: _ => do
         let a ← jsNum mins
         let b ← jsNum secs
         let c ← jsParseInt ms
         some ((a * 60 + b) * 1000 + c)
       | _ => none)
    | _ => none
  else
    -- general HH:MM:SS,mmm branch
    let parts := splitOnPred (fun c => c = ',' || c = '.') t
    let time := parts.headD []
    -- const ms = parts[1] || '000'  (empty string is falsy)
    let ms :=
      match parts.drop 1 with
      | [] => strOf "000"
      | x :: _ => if x.isEmpty then strOf "000" else x
    let timeParts := (splitOnPred (· = ':') time).map jsNum
    -- while (timeParts.length < 3) timeParts.unshift(0)
    let tp := List.replicate (3 - timeParts.length) (some (0 : Int)) ++ timeParts
    match tp with
    | h :: m :: s :: _ => do
      let hv ← h
      let mv ← m
      let sv ← s
      let msv ← jsParseInt (padEnd 3 '0' ms)
      some ((hv * 3600 + mv * 60 + sv) * 1000 + msv)
    | _ => none

/-- The split regex of `findTimestampRange`: alternation of the arrow
`-->`, `->`, `-`, `to` and tab
(alternatives tried in source order at each position). -/
def splitSepsF : Nat → Str → List Str
  | _, [] => [[]]
  | 0, s => [s]
  | f + 1, c :: r =>
    if (strOf "-->").isPrefixOf (c :: r) then [] :: splitSepsF f ((c :: r).drop 3)
    else if (strOf "->").isPrefixOf (c :: r) then [] :: splitSepsF f ((c :: r).drop 2)
    else if c = '-' then [] :: splitSepsF f r
    else if (strOf "to").isPrefixOf (c :: r) then [] :: splitSepsF f ((c :: r).drop 2)
    else if c = '\t' then [] :: splitSepsF f r
    else
      match splitSepsF f r with
      | h :: t => (c :: h) :: t
      | [] => [[c]]

/-- See above: the split of `findTimestampRange`. -/
def splitSeps (s : Str) : List Str := splitSepsF s.length s

/-- `findTimestampRange` of `core-utils.ts`: `null` (= outer `none`) only when
the split yields fewer than two parts; each side is a possibly-`NaN`
(= inner `none`) `parseTimeString` result (the `start !== null` guard in the
source is always true for numbers, `NaN` included). -/
def findTimestampRange (text : Str) : Option (Option Int × Option Int) :=
  match (splitSeps text).map jsTrim with
  | p0 :: p1 :: _ => some (parseTimeString p0, parseTimeString p1)
  | _ => none

/-- The timestamp-line test of `detectFormat`:
`/^\d{2}:\d{2}:\d{2},\d{3} --> \d{2}:\d{2}:\d{2},\d{3}$/`. -/
def isSrtArrowLine (s : Str) : Bool :=
  match s with
  | [a1, a2, ':', b1, b2, ':', c1, c2, ',', d1, d2, d3, ' ', '-', '-', '>', ' ',
     e1, e2, ':', f1, f2, ':', g1, g2, ',', h1, h2, h3] =>
    [a1, a2, b1, b2, c1, c2, d1, d2, d3, e1, e2, f1, f2, g1, g2, h1, h2, h3].all Char.isDigit
  | _ => false

/-- Result type of `detectFormat`. -/
inductive SubType
  | srt
  | vtt
  | unknown
deriving DecidableEq, Repr

/-- Diagnostic severity. -/
inductive Severity
  | warning
  | error
deriving DecidableEq, Repr

/-- `ParseError` of `types.ts`. -/
structure ParseError where
  line : Nat
  message : Str
  severity : Severity
deriving DecidableEq, Repr

/-- `FormatDetectionResult` of `core-utils.ts`. -/
structure FormatDetectionResult where
  type : SubType
  errors : Option (List ParseError)
deriving DecidableEq, Repr

/-- `detectFormat` of `core-utils.ts`. -/
def detectFormat (content : Str) : FormatDetectionResult :=
  if (jsTrim content).isEmpty then
    ⟨.unknown, some [⟨1, strOf "Empty subtitle content", .error⟩]⟩
  else if startsWithStr (strOf "WEBVTT") (jsTrim content) then
    ⟨.vtt, none⟩
  else
    let lines := splitOnPred (· = '\n') (jsTrim content)
    if 2 < lines.length &&
        isAllDigits (jsTrim (lines.headD [])) &&
        isSrtArrowLine (jsTrim ((lines.drop 1).headD [])) then
      ⟨.srt, none⟩
    else
      ⟨.unknown, some [⟨1, strOf "Invalid subtitle format", .error⟩]⟩

/-- `ParseError` literal helper. -/
def mkErr (line : Nat) (message : Str) (severity : Severity) : ParseError :=
  ⟨line, message, severity⟩

/-! ### types.ts -/

/-- `VTTCueSettings` of `types.ts` (absent keys are `none`). -/
structure VTTCueSettings where
  vertical : Option Str
  line : Option Str
  position : Option Str
  size : Option Str
  align : Option Str
  region : Option Str
deriving DecidableEq, Repr

/-- `VTTVoice` of `types.ts`. -/
structure VTTVoice where
  voice : Str
  text : Str
deriving DecidableEq, Repr

/-- `VTTRegion` of `types.ts`; a field is `none` when the corresponding
region line carried no `=`-value (JS `undefined`), and `lines = none`
models a `NaN` line count. -/
structure VTTRegion where
  id : Option Str
  width : Option Str
  lines : Option Int
  regionAnchor : Option Str
  viewportAnchor : Option Str
  scroll : Option Str
deriving DecidableEq, Repr

/-- `SubtitleCue` of `types.ts`, with the optional `VTTCue` extension fields
(they are `none` exactly when the TS object lacks the property). -/
structure SubtitleCue where
  index : Nat
  startTime : Int
  endTime : Int
  text : Str
  identifier : Option Str
  settings : Option VTTCueSettings
  voices : Option (List VTTVoice)
deriving DecidableEq, Repr

/-- `ParsedSubtitles` of `types.ts` (with the `ParsedVTT` extension fields;
`errors`, `styles`, `regions` are `none` when the property is absent). -/
structure ParsedSubtitles where
  type : SubType
  cues : List SubtitleCue
  styles : Option (List Str)
  regions : Option (List VTTRegion)
  errors : Option (List ParseError)
deriving DecidableEq, Repr

/-- `ParseOptions` of `types.ts`; an absent/`undefined` `preserveIndexes`
behaves as `false` everywhere it is read, so it is modelled as a `Bool`. -/
structure ParseOptions where
  preserveIndexes : Bool
deriving DecidableEq, Repr

/-! ### srt/parser.ts -/

namespace SRT

/-- `normalizeTimestamp` of `srt/parser.ts`. -/
def normalizeTimestamp (timestamp : Str) : Str :=
  let ts := jsTrim timestamp
  let ts := replaceFirst (strOf ".") (strOf ",") ts
  let ts := if containsSub (strOf ",") ts then ts else ts ++ strOf ",000"
  let parts := splitOnPred (· = ',') ts
  let time := parts.headD []
  let ms := (parts.drop 1).headD []
  let paddedMs := padEnd 3 '0' ms
  let paddedTime :=
    List.intercalate (strOf ":") ((splitOnPred (· = ':') time).map (padStart 2 '0'))
  paddedTime ++ strOf "," ++ paddedMs

/-- The strict pattern `/^(\d{2}):(\d{2}):(\d{2}),(\d{3})$/` with its
captured groups. -/
def srtStrict : Str → Option (Nat × Nat × Nat × Nat)
  | [h1, h2, ':', m1, m2, ':', s1, s2, ',', x1, x2, x3] =>
    if [h1, h2, m1, m2, s1, s2, x1, x2, x3].all Char.isDigit then
      some (digitsToNat [h1, h2], digitsToNat [m1, m2], digitsToNat [s1, s2],
            digitsToNat [x1, x2, x3])
    else none
  | _ => none

/-- `parseTimestamp` of `srt/parser.ts`; a thrown `Invalid timestamp format`
is `none`. -/
def parseTimestamp (timestamp : Str) : Option Int :=
  match parseTimeString timestamp with
  | some t => some t
  | none =>
    match srtStrict (normalizeTimestamp timestamp) with
    | some (h, m, s, ms) => some ((h : Int) * 3600000 + m * 60000 + s * 1000 + ms)
    | none => none

/-- Diagnostic messages of `srt/parser.ts`. -/
def msgNonSeq : Str := strOf "Non-sequential subtitle index"

def msgInvalidTs : Str := strOf "Invalid or missing timestamp"

def msgInvalidStart (n : Nat) : Str :=
  strOf "Invalid start time on line " ++ natToStr n ++ strOf ". Using 0ms as start time"

def msgInvalidEnd (n : Nat) (start : Int) : Str :=
  strOf "Invalid end time on line " ++ natToStr n ++ strOf ". Using start time (" ++
    intToStr start ++ strOf "ms) as end time"

def msgSwap : Str := strOf "Invalid timing: end time before start time. Timings have been swapped."

def msg24h : Str := strOf "Subtitle has unusual timestamp exceeding 24 hours"

def msgEmptyText : Str := strOf "Empty subtitle text"

def msgMissingIndex : Str := strOf "Missing subtitle index, continuing with auto-numbering"

def msgInvalidFormat : Str := strOf "Invalid subtitle format"

def msgOverlap : Str := strOf "Subtitles overlap"

/-- The V8 `TypeError` message raised by `timeRange.start` when
`findTimestampRange` returned `null` (quotes of the property name dropped). -/
def msgNullStart : Str := strOf "Cannot read properties of null (reading start)"

/-- The skip-empty-lines loop at the top of the scan; each skipped line also
clears `parsingCue`, reported by the returned flag. -/
def skipEmpty : List Str → Nat → List Str × Nat × Bool
  | [], idx => ([], idx, false)
  | l :: rest, idx =>
    if (jsTrim l).isEmpty then
      let (r, i, _) := skipEmpty rest (idx + 1)
      (r, i, true)
    else (l :: rest, idx, false)

/-- The end-timestamp pattern of the text-on-timestamp-line recovery,
`(?:\d{2}:)?\d{2}:\d{2}[,.]\d{3}`, `(?:\d{2}:)?\d{2},\d{2},\d{3}`,
`\d{1,2}:\d{2}[,.]\d{3}`, `\d{1,2}[,.]\d{3}` (each optional group expanded,
present branch first). -/
def endTimestampPatternAlts : List (List RItem) :=
  [ [rD 2 2, rC ':', rD 2 2, rC ':', rD 2 2, rCommaDot, rD 3 3],
    [rD 2 2, rC ':', rD 2 2, rCommaDot, rD 3 3],
    [rD 2 2, rC ':', rD 2 2, rC ',', rD 2 2, rC ',', rD 3 3],
    [rD 2 2, rC ',', rD 2 2, rC ',', rD 3 3],
    [rD 1 2, rC ':', rD 2 2, rCommaDot, rD 3 3],
    [rD 1 2, rCommaDot, rD 3 3] ]

/-- The `textAfterTimestamp` computation of `parseSRT` (source lines
167-195). -/
def computeTextAfter (firstLine : Str) : Str :=
  match indexOfSub (strOf "-->") firstLine with
  | none => []
  | some ai =>
    let afterArrow := jsTrimStart (firstLine.drop (ai + 3))
    let fallback :=
      let potential := (splitOnPred (· = ' ') afterArrow).headD []
      if startsWithStr potential afterArrow then jsTrim (afterArrow.drop potential.length)
      else jsTrim afterArrow
    match matchAlt endTimestampPatternAlts afterArrow with
    | some len => if 0 < len then jsTrim (afterArrow.drop len) else fallback
    | none => fallback

/-- The text-collection loop of `parseSRT` (source lines 213-240). -/
def collectText : Str → List Str → Nat → Str × List Str × Nat
  | text, [], idx => (text, [], idx)
  | text, l :: rest, idx =>
    if (jsTrim l).isEmpty then (text, l :: rest, idx)
    else
      let isNewCue := isAllDigits l && rest.head?.any hasTimestamp
      if isNewCue then (text, l :: rest, idx)
      else
        let looksLikeTimestamp := hasTimestamp l && containsSub (strOf "-->") l
        if looksLikeTimestamp && startsWithStr (strOf "…") (jsTrimStart l) then
          (text, l :: rest, idx)
        else if looksLikeTimestamp && text.isEmpty then (text, l :: rest, idx)
        else collectText (text ++ (if text.isEmpty then [] else ['\n']) ++ l) rest (idx + 1)

/-- The resynchronisation loop after an `Invalid subtitle format` error:
skip forward to the next bare-index line. -/
def skipToIndex : List Str → Nat → List Str × Nat
  | [], idx => ([], idx)
  | l :: rest, idx =>
    if isAllDigits (jsTrim l) then (l :: rest, idx) else skipToIndex rest (idx + 1)

/-- The recovery loop of the `catch` block: skip non-blank lines, then one
more line. -/
def skipNonEmptyThenOne : List Str → Nat → List Str × Nat
  | [], idx => ([], idx + 1)
  | l :: rest, idx =>
    if (jsTrim l).isEmpty then (rest, idx + 1) else skipNonEmptyThenOne rest (idx + 1)

/-- The main `while` loop of `parseSRT`.  `idx` is the 0-based index of the
head of `rest` in the full line array (used for diagnostic line numbers);
`fuel` bounds the number of iterations (every iteration consumes at least
one line, so `lines.length + 1` suffices).  The only JS exception reachable
inside the `try` body is the member access `timeRange.start` when
`findTimestampRange` returned `null`; it is modelled by the `none` branch,
which performs exactly what the `catch` block does — including its early
`break` once at least one cue has been parsed. -/
def srtLoop (options : ParseOptions) :
    Nat → List Str → Nat → List SubtitleCue → List ParseError → Nat → Nat → Bool → Nat →
    List SubtitleCue × List ParseError
  | 0, _, _, cues, errors, _, _, _, _ => (cues, errors)
  | fuel + 1, rest0, idx0, cues, errors, currentIndex, lastSeenIndex, parsingCue0, failedParses =>
    let sk := skipEmpty rest0 idx0
    let idx := sk.2.1
    let parsingCue := if sk.2.2 then false else parsingCue0
    match sk.1 with
    | [] => (cues, errors)
    | line :: tail =>
      let firstLine := jsTrim line
      -- index branch: `parseInt` of an all-digit line is never NaN, so the
      -- source's `!isNaN(potentialIndex)` conjunct is subsumed
      if isAllDigits firstLine && tail.head?.any hasTimestamp then
        let potentialIndex := digitsToNat firstLine
        let errors :=
          if 0 < lastSeenIndex && potentialIndex ≠ lastSeenIndex + 1 then
            errors ++ [mkErr (idx + 1) msgNonSeq .warning]
          else errors
        srtLoop options fuel tail (idx + 1) cues errors currentIndex potentialIndex true
          failedParses
      else if parsingCue || containsSub (strOf "-->") firstLine then
        match findTimestampRange firstLine with
        | none =>
          -- `timeRange.start` throws a TypeError; the `catch` block runs
          let failedParses := failedParses + 1
          let errors :=
            if errors.any (fun e => e.line = idx + 1) then errors
            else errors ++ [mkErr (idx + 1) msgNullStart .warning]
          let sk2 := skipNonEmptyThenOne (line :: tail) idx
          if 0 < failedParses && 0 < cues.length then (cues, errors)
          else srtLoop options fuel sk2.1 sk2.2 cues errors currentIndex lastSeenIndex false
            failedParses
        | some tr =>
          if tr.1.isNone && tr.2.isNone then
            let errors := errors ++ [mkErr (idx + 1) msgInvalidTs .error]
            srtLoop options fuel tail (idx + 1) cues errors currentIndex lastSeenIndex false
              failedParses
          else
            -- at least one side parsed; default the other (warning each)
            let errors :=
              if tr.1.isNone then errors ++ [mkErr (idx + 1) (msgInvalidStart (idx + 1)) .warning]
              else errors
            let s0 := tr.1.getD 0
            let errors :=
              if tr.2.isNone then errors ++ [mkErr (idx + 1) (msgInvalidEnd (idx + 1) s0) .warning]
              else errors
            let e0 := tr.2.getD s0
            -- swap when the end precedes the start
            let errors :=
              if e0 < s0 then errors ++ [mkErr (idx + 1) msgSwap .warning] else errors
            let s1 := if e0 < s0 then e0 else s0
            let e1 := if e0 < s0 then s0 else e0
            let textAfter := computeTextAfter firstLine
            let errors :=
              if 86400000 < s1 || 86400000 < e1 then errors ++ [mkErr (idx + 1) msg24h .warning]
              else errors
            let ct := collectText textAfter tail (idx + 1)
            let text := jsTrim ct.1
            if text.isEmpty then
              let errors := errors ++ [mkErr (ct.2.2) msgEmptyText .error]
              srtLoop options fuel ct.2.1 ct.2.2 cues errors 0 0 false failedParses
            else
              let currentIndex := currentIndex + 1
              let cue : SubtitleCue :=
                ⟨if options.preserveIndexes then lastSeenIndex else currentIndex,
                 s1, e1, text, none, none, none⟩
              let cues := cues ++ [cue]
              let errors :=
                if !parsingCue then errors ++ [mkErr (ct.2.2 + 1) msgMissingIndex .warning]
                else errors
              srtLoop options fuel ct.2.1 ct.2.2 cues errors currentIndex lastSeenIndex false
                failedParses
      else
        let errors := errors ++ [mkErr (idx + 1) msgInvalidFormat .error]
        let sk3 := skipToIndex tail (idx + 1)
        let failedParses :=
          if errors.getLast?.any (fun e => e.line = sk3.2 && e.severity == .error) then
            failedParses + 1
          else failedParses
        srtLoop options fuel sk3.1 sk3.2 cues errors currentIndex lastSeenIndex false failedParses

/-- The post-pass overlap scan of `parseSRT` (source lines 337-358). -/
def overlapWarnings : List SubtitleCue → Nat → List ParseError
  | c1 :: c2 :: rest, j =>
    (if c1.startTime = c2.startTime && c1.endTime = c2.endTime then []
     else if c2.startTime < c1.endTime then [mkErr (j * 2 + 1) (msgOverlap) .warning]
     else []) ++ overlapWarnings (c2 :: rest) (j + 1)
  | _, _ => []

end SRT

/-- `parseSRT` of `srt/parser.ts`. -/
def parseSRT (content : Str) (options : ParseOptions) : ParsedSubtitles :=
  let lines := splitLines (jsTrim content)
  let r := SRT.srtLoop options (lines.length + 1) lines 0 [] [] 0 0 false 0
  let errors := r.2 ++ SRT.overlapWarnings r.1 0
  ⟨.srt, r.1, none, none, if errors.isEmpty then none else some errors⟩

/-! ### srt/generator.ts -/

/-- `formatTimestamp` of `srt/generator.ts` (`Math.floor` is floor division,
JS `%` is truncated remainder). -/
def formatTimestamp (ms : Int) : Str :=
  let hours := Int.fdiv ms 3600000
  let r1 := Int.tmod ms 3600000
  let minutes := Int.fdiv r1 60000
  let r2 := Int.tmod r1 60000
  let seconds := Int.fdiv r2 1000
  let milliseconds := Int.tmod r2 1000
  padStart 2 '0' (intToStr hours) ++ strOf ":" ++ padStart 2 '0' (intToStr minutes) ++
    strOf ":" ++ padStart 2 '0' (intToStr seconds) ++ strOf "," ++
    padStart 3 '0' (intToStr milliseconds)

/-- `generateSRT` of `srt/generator.ts` on a cue array. -/
def generateSRT (cues : List SubtitleCue) (options : ParseOptions) : Str :=
  List.intercalate (strOf "\n")
    (cues.enum.map (fun ic =>
      let sequenceNumber :=
        if options.preserveIndexes then
          (if ic.2.index ≠ 0 then ic.2.index else ic.1 + 1)
        else ic.1 + 1
      List.intercalate (strOf "\n")
        [natToStr sequenceNumber,
         formatTimestamp ic.2.startTime ++ strOf " --> " ++ formatTimestamp ic.2.endTime,
         ic.2.text,
         []]))

/-- `generateSRT` applied to a parsed document (the source accepts either a
document or a bare cue array and uses only `cues`). -/
def generateSRTDoc (doc : ParsedSubtitles) (options : ParseOptions) : Str :=
  generateSRT doc.cues options

/-! ### vtt/parser.ts -/

namespace VTT

/-- Is there a `:` immediately followed by a digit anywhere in `s`?
(The lookahead `.*:\d`; timestamp tokens never contain a newline, so the
newline restriction of `.` is moot.) -/
def hasColonDigit : Str → Bool
  | [] => false
  | ':' :: d :: r => d.isDigit || hasColonDigit (d :: r)
  | _ :: r => hasColonDigit r

/-- The first replacement of `normalizeTimestamp`: rewrite the first
`:(\d{3})` whose position is not followed anywhere later by `:` + digit
into `.` + the three digits (regex with negative lookahead). -/
def replaceColonMs : Str → Str
  | [] => []
  | c :: r =>
    if c = ':' then
      match r with
      | d1 :: d2 :: d3 :: r2 =>
        if d1.isDigit && d2.isDigit && d3.isDigit && !hasColonDigit r2 then
          '.' :: d1 :: d2 :: d3 :: r2
        else ':' :: replaceColonMs r
      | _ => ':' :: replaceColonMs r
    else c :: replaceColonMs r

/-- `parseInt(x, 10) > 59` with a `NaN` comparison being false. -/
def piGT59 (s : Str) : Bool :=
  match jsParseInt s with
  | some v => 59 < v
  | none => false

/-- `parseInt(x, 10) < 60` with a `NaN` comparison being false. -/
def piLT60 (s : Str) : Bool :=
  match jsParseInt s with
  | some v => v < 60
  | none => false

/-- `normalizeTimestamp` of `vtt/parser.ts`. -/
def normalizeTimestamp (originalTimestamp : Str) : Str :=
  let ts := replaceFirst (strOf ",") (strOf ".") (jsTrim originalTimestamp)
  let ts := replaceColonMs ts
  let mainParts := splitOnPred (· = ':') ts
  let hms : Str × Str × Str × Str :=
    if mainParts.length = 3 then
      let h := mainParts.headD []
      let m := (mainParts.drop 1).headD []
      let lastPart := (mainParts.drop 2).headD []
      if containsSub (strOf ".") lastPart then
        let seg := (splitOnPred (· = '.') lastPart).take 2
        let sPart := seg.headD []
        let msPartGiven := (seg.drop 1).headD []
        (h, m, sPart, padEnd 3 '0' msPartGiven)
      else
        let isH0 := h = strOf "00" || h = strOf "0"
        if isH0 && lastPart.length = 2 && isAllDigits lastPart && piGT59 lastPart then
          (h, strOf "00", m, padEnd 3 '0' lastPart)
        else if isH0 && lastPart.length = 3 && isAllDigits lastPart && piLT60 m then
          (h, strOf "00", m, lastPart)
        else if isH0 && piLT60 m && lastPart.length = 2 && isAllDigits lastPart &&
            lastPart ≠ strOf "00" then
          (h, strOf "00", m, padEnd 3 '0' lastPart)
        else if lastPart.length = 3 && isAllDigits lastPart then
          (h, m, strOf "00", lastPart)
        else if lastPart.length ≤ 2 && isAllDigits lastPart then
          (h, m, lastPart, strOf "000")
        else
          (h, m, strOf "00", padEnd 3 '0' lastPart)
    else if mainParts.length = 2 then
      let m := mainParts.headD []
      let lastPart := (mainParts.drop 1).headD []
      if containsSub (strOf ".") lastPart then
        let seg := (splitOnPred (· = '.') lastPart).take 2
        (strOf "00", m, seg.headD [], padEnd 3 '0' ((seg.drop 1).headD []))
      else (strOf "00", m, lastPart, strOf "000")
    else if mainParts.length = 1 && !ts.isEmpty then
      let lastPart := mainParts.headD []
      if containsSub (strOf ".") lastPart then
        let seg := (splitOnPred (· = '.') lastPart).take 2
        (strOf "00", strOf "00", seg.headD [], padEnd 3 '0' ((seg.drop 1).headD []))
      else (strOf "00", strOf "00", lastPart, strOf "000")
    else if startsWithStr (strOf ".") ts then
      (strOf "00", strOf "00", strOf "00", padEnd 3 '0' (ts.drop 1))
    else (strOf "00", strOf "00", strOf "00", strOf "000")
  padStart 2 '0' hms.1 ++ strOf ":" ++ padStart 2 '0' hms.2.1 ++ strOf ":" ++
    padStart 2 '0' hms.2.2.1 ++ strOf "." ++ padEnd 3 '0' hms.2.2.2

/-- The strict pattern of the VTT `parseTimestamp`,
`/^(\d{2}):(\d{2}):(\d{2})\.(\d{3})$/`, with its captured groups. -/
def vttStrict : Str → Option (Nat × Nat × Nat × Nat)
  | [h1, h2, ':', m1, m2, ':', s1, s2, '.', x1, x2, x3] =>
    if [h1, h2, m1, m2, s1, s2, x1, x2, x3].all Char.isDigit then
      some (digitsToNat [h1, h2], digitsToNat [m1, m2], digitsToNat [s1, s2],
            digitsToNat [x1, x2, x3])
    else none
  | _ => none

/-- `parseTimestamp` of `vtt/parser.ts`: normalize, match the strict
pattern, and reject values above `359999999` ms (`unusual timestamp
value`); any throw is `none`.  (All groups are digits, so the `isNaN`
guard of the source cannot fire.) -/
def parseTimestamp (timestamp : Str) : Option Int :=
  match vttStrict (normalizeTimestamp timestamp) with
  | some (h, m, s, ms) =>
    let total : Int := h * 3600000 + m * 60000 + s * 1000 + ms
    if 359999999 < total then none else some total
  | none => none

/-- JS `parseFloat` restricted to decimal forms: optional sign, digits,
optional fraction, as a scaled pair `(p, k)` denoting `p / 10^k`;
`none` is `NaN`. -/
def jsParseFloat (s : Str) : Option (Int × Nat) :=
  let t := s.dropWhile isJsWs
  let sgn : Int := if t.head? = some '-' then -1 else 1
  let t := if t.head? = some '-' || t.head? = some '+' then t.tail else t
  let ip := t.takeWhile Char.isDigit
  let rest := t.drop ip.length
  let fp :=
    match rest with
    | '.' :: r => r.takeWhile Char.isDigit
    | _ => []
  if ip.isEmpty && fp.isEmpty then none
  else some (sgn * ((digitsToNat ip : Int) * 10 ^ fp.length + digitsToNat fp), fp.length)

/-- `parseVTTTimestamp` of `vtt/parser.ts`.  The percentage branch maps
`p%` to `(p / 100) * 24 * 3600000` ms; a non-integral result (possible only
for a fractional percentage) is floored where JS would keep a fractional
millisecond count — no claim in this development involves fractional
percentages. -/
def parseVTTTimestamp (timestamp : Str) : Option Int :=
  let t := jsTrim timestamp
  if t.getLast? = some '%' then
    match jsParseFloat t with
    | none => none
    | some (p, k) =>
      if p < 0 || (100 : Int) * 10 ^ k < p then none
      else some (Int.fdiv (p * 864000) (10 ^ k))
  else
    let parts := splitOnPred (· = ':') t
    if parts.length = 1 then
      let seg := splitOnPred (· = '.') (parts.headD [])
      let seconds := seg.headD []
      let milliseconds :=
        match seg.drop 1 with
        | [] => strOf "000"
        | x :: _ => x
      match jsParseInt seconds, jsParseInt (padEnd 3 '0' milliseconds) with
      | some a, some b => some (a * 1000 + b)
      | _, _ => none
    else parseTimestamp (normalizeTimestamp t)

/-- `parseVTTSettings` of `vtt/parser.ts`. -/
def parseVTTSettings (settings : Str) : VTTCueSettings :=
  let pairs := splitWsRuns (jsTrim settings)
  pairs.foldl
    (fun acc pair =>
      let kv := splitOnPred (· = ':') pair
      let key := kv.headD []
      let value := (kv.drop 1).headD []
      if key.isEmpty || value.isEmpty then acc
      else if key = strOf "vertical" then
        if value = strOf "rl" || value = strOf "lr" then { acc with vertical := some value }
        else acc
      else if key = strOf "line" then { acc with line := some value }
      else if key = strOf "position" then { acc with position := some value }
      else if key = strOf "size" then { acc with size := some value }
      else if key = strOf "align" then
        if [strOf "start", strOf "center", strOf "end", strOf "left",
            strOf "right"].contains value then { acc with align := some value }
        else acc
      else if key = strOf "region" then { acc with region := some value }
      else acc)
    ⟨none, none, none, none, none, none⟩

/-- `parseVTTRegion` of `vtt/parser.ts`. -/
def parseVTTRegion (content : Str) : VTTRegion :=
  (splitOnPred (· = '\n') content).foldl
    (fun region l =>
      let kv := (splitOnPred (· = '=') l).map jsTrim
      let key := kv.headD []
      let value : Option Str := (kv.drop 1).head?
      if key = strOf "id" then { region with id := value }
      else if key = strOf "width" then { region with width := value }
      else if key = strOf "lines" then
        { region with
          lines :=
            match value with
            | some v => jsParseInt v
            | none => none }
      else if key = strOf "regionanchor" then { region with regionAnchor := value }
      else if key = strOf "viewportanchor" then { region with viewportAnchor := value }
      else if key = strOf "scroll" then { region with scroll := value }
      else region)
    ⟨some [], some (strOf "100%"), some 3, some (strOf "0%,100%"), some (strOf "0%,100%"),
     some (strOf "none")⟩

/-- Lazy `(.*?)<\/v>` scan: the shortest newline-free prefix followed by the
closing tag, returning the inner text and the remainder after the tag. -/
def lazyUntilClose : Str → Option (Str × Str)
  | '<' :: '/' :: 'v' :: '>' :: r => some ([], r)
  | [] => none
  | c :: r =>
    if c = '\n' then none
    else (lazyUntilClose r).map (fun p => (c :: p.1, p.2))

/-- Match of `<v\s+([^>]*)>(.*?)<\/v>` at the start of `s`:
`(length consumed, name capture, inner capture)`. -/
def matchVoiceAt (s : Str) : Option (Nat × Str × Str) :=
  if (strOf "<v").isPrefixOf s then
    let r := s.drop 2
    let ws := r.takeWhile isJsWs
    if ws.isEmpty then none
    else
      let r2 := r.drop ws.length
      let name := r2.takeWhile (· ≠ '>')
      match r2.drop name.length with
      | '>' :: r4 =>
        (lazyUntilClose r4).map
          (fun p => (2 + ws.length + name.length + 1 + p.1.length + 4, name, p.1))
      | _ => none
  else none

/-- Fuel-based worker for the voice-tag scan. -/
def voiceScanF : Nat → Str → List (Str × Str × Str)
  | _, [] => []
  | 0, _ => []
  | f + 1, c :: r =>
    match matchVoiceAt (c :: r) with
    | some (len, name, inner) =>
      if 0 < len then
        ((c :: r).take len, name, inner) :: voiceScanF f ((c :: r).drop len)
      else voiceScanF f r
    | none => voiceScanF f r

/-- All (non-overlapping, left-to-right) voice-tag matches, as
`(full match, name, inner)`. -/
def voiceScan (s : Str) : List (Str × Str × Str) := voiceScanF s.length s

/-- `parseVTTVoices` of `vtt/parser.ts`: extract the voice spans and replace
each full match in the running clean text by its inner capture (first
occurrence, as JS string `replace`). -/
def parseVTTVoices (text : Str) : Str × List VTTVoice :=
  let ms := voiceScan text
  let voices : List VTTVoice := ms.map (fun m => ⟨jsTrim m.2.1, jsTrim m.2.2⟩)
  let cleanText := ms.foldl (fun acc m => replaceFirst m.1 m.2.2 acc) text
  (cleanText, voices)

/-- Match of `<v\s+([^>]+)>([^<]+)` at the start of `s`. -/
def matchSpanAt (s : Str) : Option (Nat × Str × Str) :=
  if (strOf "<v").isPrefixOf s then
    let r := s.drop 2
    let ws := r.takeWhile isJsWs
    if ws.isEmpty then none
    else
      let r2 := r.drop ws.length
      let name := r2.takeWhile (· ≠ '>')
      if name.isEmpty then none
      else
        match r2.drop name.length with
        | '>' :: r4 =>
          let inner := r4.takeWhile (· ≠ '<')
          if inner.isEmpty then none
          else some (2 + ws.length + name.length + 1 + inner.length, name, inner)
        | _ => none
  else none

/-- Fuel-based worker for the looser voice-span scan. -/
def spanScanF : Nat → Str → List (Str × Str)
  | _, [] => []
  | 0, _ => []
  | f + 1, c :: r =>
    match matchSpanAt (c :: r) with
    | some (len, name, inner) =>
      if 0 < len then (name, inner) :: spanScanF f ((c :: r).drop len)
      else spanScanF f r
    | none => spanScanF f r

/-- All matches of the looser voice-span pattern. -/
def spanScan (s : Str) : List (Str × Str) := spanScanF s.length s

/-- `parseVoiceSpans` of `vtt/parser.ts`. -/
def parseVoiceSpans (text : Str) : Option (List VTTVoice) :=
  let ms := spanScan text
  if ms.isEmpty then none
  else some (ms.map (fun m => ⟨jsTrim m.1, jsTrim m.2⟩))

/-- `parseCueIndex` of `vtt/parser.ts` (unused by the main loop but part of
the module). -/
def parseCueIndex (l : Str) : Option Int := jsParseInt l

def msgInvalidTsFmt : Str := strOf "Invalid timestamp format"

def msgInvalidStart (startStr : Str) : Str :=
  strOf "Invalid VTT start time format or value \"" ++ startStr ++ strOf "\""

def msgInvalidEnd (endStr : Str) : Str :=
  strOf "Invalid VTT end time format or value \"" ++ endStr ++ strOf "\""

/-- `/^(WEBVTT|STYLE|REGION|NOTE)/` on a (trimmed) line. -/
def startsBlockKeyword (t : Str) : Bool :=
  startsWithStr (strOf "WEBVTT") t || startsWithStr (strOf "STYLE") t ||
    startsWithStr (strOf "REGION") t || startsWithStr (strOf "NOTE") t

/-- NOTE-block skip: consume non-blank lines that do not contain the arrow. -/
def noteSkip : List Str → Nat → List Str × Nat
  | [], idx => ([], idx)
  | l :: rest, idx =>
    if (jsTrim l).isEmpty || containsSub (strOf "-->") l then (l :: rest, idx)
    else noteSkip rest (idx + 1)

/-- STYLE/REGION body collection: lines up to a blank, each with a trailing
newline appended. -/
def blockCollect : List Str → Nat → Str → Str × List Str × Nat
  | [], idx, acc => (acc, [], idx)
  | l :: rest, idx, acc =>
    if (jsTrim l).isEmpty then (acc, l :: rest, idx)
    else blockCollect rest (idx + 1) (acc ++ l ++ ['\n'])

/-- Skip to the next blank line (malformed-timestamp recovery). -/
def skipToBlank : List Str → Nat → List Str × Nat
  | [], idx => ([], idx)
  | l :: rest, idx =>
    if (jsTrim l).isEmpty then (l :: rest, idx) else skipToBlank rest (idx + 1)

/-- The bad-cue text skip of the start/end timestamp failure paths. -/
def skipBadCue : List Str → Nat → List Str × Nat
  | [], idx => ([], idx)
  | l :: rest, idx =>
    let t := jsTrim l
    if t.isEmpty || containsSub (strOf "-->") l || startsBlockKeyword t || isAllDigits t then
      (l :: rest, idx)
    else skipBadCue rest (idx + 1)

/-- The text-collection loop of the VTT cue parser (source lines 475-504).
The inner lookahead break of the source requires `isPotentialIdentifier`,
which has already caused a break above it; it is kept verbatim anyway. -/
def collectText : Str → List Str → Nat → Str × List Str × Nat
  | text, [], idx => (text, [], idx)
  | text, l :: rest, idx =>
    let line := jsTrim l
    let isTimestampLine := containsSub (strOf "-->") line
    let isPotentialIdentifier := isAllDigits line
    if line.isEmpty || isPotentialIdentifier || isTimestampLine then (text, l :: rest, idx)
    else
      let lookaheadBreak :=
        match rest with
        | nl :: _ =>
          containsSub (strOf "-->") (jsTrim nl) && (isPotentialIdentifier || isAllDigits line)
        | [] => false
      if lookaheadBreak then (text, l :: rest, idx)
      else collectText (text ++ (if text.isEmpty then [] else ['\n']) ++ jsTrim l) rest (idx + 1)

/-- Does the settings record carry at least one key
(`Object.keys(settings).length > 0`)? -/
def settingsNonempty (s : VTTCueSettings) : Bool :=
  s.vertical.isSome || s.line.isSome || s.position.isSome || s.size.isSome ||
    s.align.isSome || s.region.isSome

/-- The main block/cue loop of `parseVTT` (source lines 301-551).  `idx` is
the 0-based index of the head of `rest`; every iteration consumes at least
one line, so `lines.length + 1` fuel suffices.  The two timestamp-parse
failures are handled by their own inner `catch` blocks (modelled by the
`none` branches); no other statement of the loop body can throw, so the
outer `catch` is unreachable and the loop always scans to the end of the
input. -/
def vttLoop (options : ParseOptions) :
    Nat → List Str → Nat → List SubtitleCue → List ParseError → List Str → List VTTRegion →
    Nat → List SubtitleCue × List ParseError × List Str × List VTTRegion
  | 0, _, _, cues, errors, styles, regions, _ => (cues, errors, styles, regions)
  | fuel + 1, rest, idx, cues, errors, styles, regions, currentIndex =>
    match rest with
    | [] => (cues, errors, styles, regions)
    | l :: tail =>
      let line := jsTrim l
      if line.isEmpty then
        vttLoop options fuel tail (idx + 1) cues errors styles regions currentIndex
      else if startsWithStr (strOf "NOTE") line then
        let (rest', idx') := noteSkip tail (idx + 1)
        vttLoop options fuel rest' idx' cues errors styles regions currentIndex
      else if line = strOf "STYLE" then
        let (content, rest', idx') := blockCollect tail (idx + 1) []
        vttLoop options fuel rest' idx' cues errors (styles ++ [jsTrim content]) regions
          currentIndex
      else if line = strOf "REGION" then
        let (content, rest', idx') := blockCollect tail (idx + 1) []
        vttLoop options fuel rest' idx' cues errors styles
          (regions ++ [parseVTTRegion (jsTrim content)]) currentIndex
      else
        -- cue: an identifier line is any line without the arrow
        let step : Option (Option Str × Str × List Str × Nat) :=
          if !containsSub (strOf "-->") line then
            match tail with
            | [] => none  -- `if (i >= lines.length) break`
            | l2 :: tail2 => some (some line, jsTrim l2, l2 :: tail2, idx + 1)
          else some (none, line, l :: tail, idx)
        match step with
        | none => (cues, errors, styles, regions)
        | some (identifier, timestampLine, restTs, idxTs) =>
          let tsParts := (splitOnStr (strOf "-->") timestampLine).map jsTrim
          if tsParts.length ≠ 2 then
            let errors := errors ++ [mkErr (idxTs + 1) msgInvalidTsFmt .error]
            let (rest', idx') := skipToBlank restTs idxTs
            vttLoop options fuel rest' idx' cues errors styles regions currentIndex
          else
            let startStr := tsParts.headD []
            let endWithSettings := (tsParts.drop 1).headD []
            let endSplit := splitWsRuns endWithSettings
            let endStr := endSplit.headD []
            let settingsParts := endSplit.drop 1
            match parseVTTTimestamp startStr with
            | none =>
              let errors := errors ++ [mkErr (idxTs + 1) (msgInvalidStart startStr) .error]
              let (rest', idx') := skipBadCue (restTs.drop 1) (idxTs + 1)
              vttLoop options fuel rest' idx' cues errors styles regions currentIndex
            | some startTime =>
              match parseVTTTimestamp endStr with
              | none =>
                let errors := errors ++ [mkErr (idxTs + 1) (msgInvalidEnd endStr) .error]
                let (rest', idx') := skipBadCue (restTs.drop 1) (idxTs + 1)
                vttLoop options fuel rest' idx' cues errors styles regions currentIndex
              | some endTime =>
                let settings := parseVTTSettings (List.intercalate (strOf " ") settingsParts)
                let (text0, rest', idx') := collectText [] (restTs.drop 1) (idxTs + 1)
                let (cleanText, voices) := parseVTTVoices (jsTrim text0)
                let identifierField :=
                  if options.preserveIndexes then
                    match identifier with
                    | some idn => if !idn.isEmpty then some idn else none
                    | none => none
                  else none
                let settingsField := if settingsNonempty settings then some settings else none
                let voicesField : Option (List VTTVoice) :=
                  if !voices.isEmpty then some voices else none
                let voicesField :=
                  match parseVoiceSpans cleanText with
                  | some vs => some vs
                  | none => voicesField
                let cue : SubtitleCue :=
                  ⟨currentIndex + 1, startTime, endTime, cleanText, identifierField,
                   settingsField, voicesField⟩
                vttLoop options fuel rest' idx' (cues ++ [cue]) errors styles regions
                  (currentIndex + 1)

/-- The WEBVTT-header skip: past the header line and any following non-blank
metadata lines, then one more line. -/
def headerSkip : List Str → Nat → List Str × Nat
  | [], idx => ([], idx + 1)
  | l :: rest, idx =>
    if (jsTrim l).isEmpty then (rest, idx + 1) else headerSkip rest (idx + 1)

end VTT

/-- `parseVTT` of `vtt/parser.ts`. -/
def parseVTT (content : Str) (options : ParseOptions) : ParsedSubtitles :=
  let lines := splitLines (jsTrim content)
  let start : List Str × Nat :=
    if startsWithStr (strOf "WEBVTT") (jsTrim (lines.headD [])) then
      VTT.headerSkip (lines.drop 1) 1
    else (lines, 0)
  let r := VTT.vttLoop options (lines.length + 1) start.1 start.2 [] [] [] [] 0
  ⟨.vtt, r.1,
   if r.2.2.1.isEmpty then none else some r.2.2.1,
   if r.2.2.2.isEmpty then none else some r.2.2.2,
   if r.2.1.isEmpty then none else some r.2.1⟩

/-! ### vtt/generator.ts -/

/-- `formatVTTTimestamp` of `vtt/generator.ts`. -/
def formatVTTTimestamp (ms : Int) : Str :=
  let hours := Int.fdiv ms 3600000
  let minutes := Int.fdiv (Int.tmod ms 3600000) 60000
  let seconds := Int.fdiv (Int.tmod ms 60000) 1000
  let milliseconds := Int.tmod ms 1000
  if 0 < hours then
    padStart 2 '0' (intToStr hours) ++ strOf ":" ++ padStart 2 '0' (intToStr minutes) ++
      strOf ":" ++ padStart 2 '0' (intToStr seconds) ++ strOf "." ++
      padStart 3 '0' (intToStr milliseconds)
  else
    padStart 2 '0' (intToStr minutes) ++ strOf ":" ++ padStart 2 '0' (intToStr seconds) ++
      strOf "." ++ padStart 3 '0' (intToStr milliseconds)

/-- `isVTTCue` of `vtt/generator.ts`: the cue carries at least one of the
VTT-only properties. -/
def isVTTCue (c : SubtitleCue) : Bool :=
  c.identifier.isSome || c.settings.isSome || c.voices.isSome

/-- `formatCueSettings` of `vtt/generator.ts`. -/
def formatCueSettings (c : SubtitleCue) : Str :=
  match c.settings with
  | none => []
  | some st =>
    let push (k : String) (v : Option Str) : List Str :=
      match v with
      | some s => if !s.isEmpty then [strOf k ++ s] else []
      | none => []
    let parts :=
      push "vertical:" st.vertical ++ push "line:" st.line ++ push "position:" st.position ++
        push "size:" st.size ++ push "align:" st.align ++ push "region:" st.region
    if parts.isEmpty then [] else strOf " " ++ List.intercalate (strOf " ") parts

/-- `formatVoices` of `vtt/generator.ts`. -/
def formatVoices (c : SubtitleCue) : Str :=
  match c.voices with
  | none => c.text
  | some vs =>
    if vs.isEmpty then c.text
    else
      List.intercalate (strOf "\n")
        (vs.map (fun v => strOf "<v " ++ v.voice ++ strOf ">" ++ v.text ++ strOf "</v>"))

/-- One emitted REGION block (source lines 57-66); a field is emitted when
truthy (non-empty string / non-zero non-NaN number). -/
def regionBlock (region : VTTRegion) : Str :=
  let pushS (k : String) (v : Option Str) : List Str :=
    match v with
    | some s => if !s.isEmpty then [strOf k ++ s] else []
    | none => []
  let pushLines : List Str :=
    match region.lines with
    | some v => if v ≠ 0 then [strOf "lines=" ++ intToStr v] else []
    | none => []
  let regionLines :=
    [[], strOf "REGION"] ++ pushS "id=" region.id ++ pushS "width=" region.width ++
      pushLines ++ pushS "regionanchor=" region.regionAnchor ++
      pushS "viewportanchor=" region.viewportAnchor ++ pushS "scroll=" region.scroll
  List.intercalate (strOf "\n") regionLines

/-- `generateVTT` of `vtt/generator.ts` on a parsed document (the source
also accepts a bare cue array; only the document path is used by the
claims, and for it `isParsedVTT` is true). -/
def generateVTT (subtitles : ParsedSubtitles) (options : ParseOptions) : Str :=
  let blocks : List Str := [strOf "WEBVTT"]
  let blocks :=
    blocks ++
      (match subtitles.styles with
       | some l => l.map (fun st => strOf "STYLE\n" ++ st)
       | none => [])
  let blocks :=
    blocks ++
      (match subtitles.regions with
       | some l => l.map regionBlock
       | none => [])
  let cues := subtitles.cues
  let hasAnyIdentifiers := cues.any (fun c => isVTTCue c && c.identifier.isSome)
  let cueBlocks :=
    cues.enum.map (fun ic =>
      let cue := ic.2
      let cueIdentifier : Str :=
        if options.preserveIndexes then
          if hasAnyIdentifiers then
            match cue.identifier with
            | some idn => if !(jsTrim idn).isEmpty then idn else []
            | none => []
          else natToStr cue.index
        else natToStr (ic.1 + 1)
      let cueLines :=
        (if !cueIdentifier.isEmpty then [cueIdentifier] else []) ++
          [formatVTTTimestamp cue.startTime ++ strOf " --> " ++
             formatVTTTimestamp cue.endTime ++ formatCueSettings cue] ++
          [if isVTTCue cue && cue.voices.isSome then formatVoices cue else cue.text]
      List.intercalate (strOf "\n") cueLines)
  List.intercalate (strOf "\n\n") (blocks ++ cueBlocks) ++ strOf "\n"

/-! ### index.ts -/

/-- `parse` of `index.ts`: detect the format, dispatch to the matching
parser, or return the `unknown` document carrying the detector's errors. -/
def parse (content : Str) (options : ParseOptions) : ParsedSubtitles :=
  let formatResult := detectFormat content
  match formatResult.type with
  | .srt => parseSRT content options
  | .vtt => parseVTT content options
  | .unknown => ⟨.unknown, [], none, none, formatResult.errors⟩

/-- `parseSRT` called without an options argument
(`options: ParseOptions = {}`, whose absent `preserveIndexes` is falsy). -/
def parseSRTNoOptions (content : Str) : ParsedSubtitles := parseSRT content ⟨false⟩

/-- `parseVTT` called without an options argument
(`options: ParseOptions = { preserveIndexes: true }`). -/
def parseVTTNoOptions (content : Str) : ParsedSubtitles := parseVTT content ⟨true⟩

/-- `parse` called without an options argument (`options = {}`). -/
def parseNoOptions (content : Str) : ParsedSubtitles := parse content ⟨false⟩

/-! ### Canonical-document classes for the round-trip property

The SRT/VTT generators emit text whose cue boundaries are recovered purely
syntactically; a cue-text line that itself looks like a boundary (a pure
digit run, a timestamp-shaped token, a blank line) makes the scan split the
cue.  The classes below carve out the generator images on which the
byte-for-byte round trip holds. -/

/-- A cue-text line the SRT scan cannot mistake for a boundary. -/
def goodSrtTextLine (l : Str) : Bool :=
  !(jsTrim l).isEmpty && !isAllDigits l && !hasTimestamp l && !l.contains '\r'

/-- SRT cue text: trim-fixed, every line boundary-unambiguous. -/
def goodSrtText (text : Str) : Bool :=
  jsTrim text == text && (splitOnPred (· = '\n') text).all goodSrtTextLine

/-- A cue the SRT generator emits in a form its parser reads back
verbatim: positive declared index, ordered in-range times, boundary-safe
text, no VTT-only fields. -/
def goodSrtCue (c : SubtitleCue) : Bool :=
  decide (c.index ≠ 0) && decide (0 ≤ c.startTime) && decide (c.startTime ≤ c.endTime) &&
    decide (c.endTime < 360000000) && goodSrtText c.text && c.identifier.isNone &&
    c.settings.isNone && c.voices.isNone

/-- The canonical SRT class. -/
def goodSrtCues (cs : List SubtitleCue) : Bool := cs.all goodSrtCue

/-- A cue-text line the VTT scan cannot mistake for a boundary (the VTT
collector re-trims every line, so each line must equal its own trim). -/
def goodVttTextLine (l : Str) : Bool :=
  !l.isEmpty && jsTrim l == l && !isAllDigits l && !containsSub (strOf "-->") l &&
    !l.contains '\r' && !l.contains '<' 

/-- VTT cue text: every line boundary-unambiguous and trim-fixed. -/
def goodVttText (text : Str) : Bool :=
  (splitOnPred (· = '\n') text).all goodVttTextLine

/-- A cue identifier the VTT block dispatcher reads back as an identifier. -/
def goodVttIdentifier (idn : Str) : Bool :=
  !idn.isEmpty && jsTrim idn == idn && !containsSub (strOf "-->") idn &&
    !startsWithStr (strOf "NOTE") idn && decide (idn ≠ strOf "STYLE") &&
    decide (idn ≠ strOf "REGION") && !idn.contains '\r' && !idn.contains '\n'

/-- A cue the VTT generator emits in a form its parser reads back verbatim:
an explicit identifier, in-range times (under 100 h, the VTT parser limit),
boundary-safe text, no settings or voice markup. -/
def goodVttCue (c : SubtitleCue) : Bool :=
  (match c.identifier with
   | some idn => goodVttIdentifier idn
   | none => false) &&
    decide (0 ≤ c.startTime) && decide (c.startTime < 360000000) &&
    decide (0 ≤ c.endTime) && decide (c.endTime < 360000000) &&
    goodVttText c.text && c.settings.isNone && c.voices.isNone

/-- The canonical VTT class: identifier-carrying cues only, no style or
region blocks. -/
def goodVttDoc (d : ParsedSubtitles) : Bool :=
  d.cues.all goodVttCue && d.styles.isNone && d.regions.isNone

/-- Sequential display indexes from `k + 1` (what the VTT parser assigns). -/
def reindexFrom : Nat → List SubtitleCue → List SubtitleCue
  | _, [] => []
  | k, c :: cs =>
    ⟨k + 1, c.startTime, c.endTime, c.text, c.identifier, c.settings, c.voices⟩ ::
      reindexFrom (k + 1) cs

/-! ### Concrete documents used by the claims -/

/-- A canonical, generator-emitted SRT document whose cue text contains a
pure-digit line followed by a timestamp-like line. -/
def csC1 : List SubtitleCue :=
  [⟨1, 1000, 4000, strOf "first\n42\nat 1:23 sharp", none, none, none⟩]

/-- Canonical witnesses for the amended round trip. -/
def csC1srtOk : List SubtitleCue :=
  [⟨1, 1000, 4000, strOf "Hey, what is the vibe?", none, none, none⟩,
   ⟨2, 4500, 6000, strOf "The vibe is immaculate!", none, none, none⟩]

def docC1vttOk : ParsedSubtitles :=
  ⟨.vtt,
   [⟨1, 1000, 4000, strOf "Hey, what is the vibe?", some (strOf "intro"), none, none⟩,
    ⟨2, 4500, 7200000, strOf "Line one\nLine two", some (strOf "2"), none, none⟩],
   none, none, none⟩

/-- SRT input whose second cue has a timestamp line with no separator token
at all: member access on the `null` range throws, and the `catch` block
stops the scan although a well-formed cue `C` follows. -/
def srtC3cex : Str :=
  strOf "1\n00:00:01,000 --> 00:00:02,000\nA\n\n2\nat 1:23 sharp\nB\n\n3\n00:00:05,000 --> 00:00:06,000\nC"

/-- VTT input whose first cue has an ellipsis-corrupted end timestamp,
followed by a well-formed cue. -/
def vttC3ellipsis : Str :=
  strOf "WEBVTT\n\n00:00:01.000 --> 00:00:02…000\nBad text\n\n00:00:03.000 --> 00:00:04.000\nGood"

/-- SRT input with a non-thrown per-cue timestamp error followed by a
well-formed cue. -/
def srtC3resync : Str :=
  strOf "zz --> zz\nBad\n\n2\n00:00:03,000 --> 00:00:04,000\nGood"

/-- VTT cue with the end timestamp before the start timestamp. -/
def vttC4cex : Str := strOf "WEBVTT\n\n00:00:04.000 --> 00:00:01.000\nHi"

/-- SRT cue with the end timestamp before the start timestamp. -/
def srtC4swap : Str := strOf "1\n00:00:04,000 --> 00:00:01,000\nHi"

/-- VTT cue whose end timestamp parses above the ~100 h limit
(`99:99:00.000` = 362340000 ms > 359999999 ms). -/
def vttC5cex : Str := strOf "WEBVTT\n\n00:00:01.000 --> 99:99:00.000\nHi"

/-- SRT cue with both timestamps above the limit. -/
def srtC5over : Str := strOf "1\n100:00:00,000 --> 100:00:01,000\nHi"

/-- SRT input whose middle cue has empty text: the auto-number counter is
reset, so the third cue repeats index 1. -/
def srtC6cex : Str :=
  strOf "1\n00:00:01,000 --> 00:00:02,000\nA\n\n2\n00:00:03,000 --> 00:00:04,000\n\n3\n00:00:05,000 --> 00:00:06,000\nB"

/-- SRT input with declared indexes 5 then 2. -/
def srtC6nonseq : Str :=
  strOf "5\n00:00:01,000 --> 00:00:02,000\nA\n\n2\n00:00:03,000 --> 00:00:04,000\nB"

/-- SRT input with overlapping cues `[1000,4000]` and `[3000,5000]`. -/
def srtC7overlap : Str :=
  strOf "1\n00:00:01,000 --> 00:00:04,000\nFirst\n\n2\n00:00:03,000 --> 00:00:05,000\nSecond"

/-- Two concrete overlapping cue records, instantiating the adjacency-scan law. -/
def c7wCues : List SubtitleCue :=
  [⟨1, 1000, 4000, strOf "First", none, none, none⟩,
   ⟨2, 3000, 5000, strOf "Second", none, none, none⟩]

/-- VTT input with a textual cue identifier. -/
def vttC10 : Str := strOf "WEBVTT\n\nintro\n00:01.000 --> 00:04.000\nHello"

/-! ### Line-level shape of generator output (used by the round-trip proof) -/

/-- The timestamp line the SRT generator emits for a cue. -/
def srtTsLine (c : SubtitleCue) : Str :=
  formatTimestamp c.startTime ++ strOf " --> " ++ formatTimestamp c.endTime

/-- The lines of one SRT cue block: index, timestamp line, text lines. -/
def srtBlockLines (c : SubtitleCue) : List Str :=
  natToStr c.index :: srtTsLine c :: splitOnPred (· = '\n') c.text

/-- The lines of an SRT document: blocks separated by one blank line. -/
def srtGenLines : List SubtitleCue → List Str
  | [] => []
  | [c] => srtBlockLines c
  | c :: cs => srtBlockLines c ++ [[]] ++ srtGenLines cs

/-- The timestamp line the VTT generator emits for a settings-free cue. -/
def vttTsLine (c : SubtitleCue) : Str :=
  formatVTTTimestamp c.startTime ++ strOf " --> " ++ formatVTTTimestamp c.endTime

/-- The lines of one VTT cue block (identifier line when present). -/
def vttBlockLines (c : SubtitleCue) : List Str :=
  (match c.identifier with
   | some idn => [idn]
   | none => []) ++ vttTsLine c :: splitOnPred (· = '\n') c.text

/-- The cue lines of a VTT document: blocks separated by one blank line. -/
def vttGenLines : List SubtitleCue → List Str
  | [] => []
  | [c] => vttBlockLines c
  | c :: cs => vttBlockLines c ++ [[]] ++ vttGenLines cs

/-- Characters a canonical timestamp token may contain. -/
def tsSafeChar (c : Char) : Bool :=
  c.isDigit || c = ':' || c = ',' || c = '.'

/-! ### Shared lemmas -/

theorem parseSRT_type (c : Str) (o : ParseOptions) : (parseSRT c o).type = .srt := rfl

theorem parseVTT_type (c : Str) (o : ParseOptions) : (parseVTT c o).type = .vtt := rfl

theorem parse_type_eq_detect (c : Str) (o : ParseOptions) :
    (parse c o).type = (detectFormat c).type := by
  unfold parse
  rcases h : (detectFormat c).type <;> simp only [h] <;> rfl

theorem parse_eq_of_unknown (c : Str) (o : ParseOptions)
    (h : (detectFormat c).type = .unknown) :
    parse c o = ⟨.unknown, [], none, none, (detectFormat c).errors⟩ := by
  simp only [parse, h]

theorem detectFormat_unknown_errors (c : Str) (h : (detectFormat c).type = .unknown) :
    ∃ es, (detectFormat c).errors = some es ∧ es ≠ [] := by
  unfold detectFormat at h ⊢
  by_cases h1 : (jsTrim c).isEmpty
  · simp only [if_pos h1]
    exact ⟨_, rfl, by simp⟩
  · simp only [if_neg h1] at h ⊢
    by_cases h2 : startsWithStr (strOf "WEBVTT") (jsTrim c) = true
    · rw [if_pos h2] at h
      simp at h
    · simp only [if_neg h2] at h ⊢
      split at h
      next hcond => simp at h
      next hcond =>
        rw [if_neg hcond]
        exact ⟨_, rfl, by simp⟩

theorem detectFormat_of_blank (c : Str) (h : jsTrim c = []) :
    detectFormat c = ⟨.unknown, some [⟨1, strOf "Empty subtitle content", .error⟩]⟩ := by
  unfold detectFormat
  rw [h]
  rfl

/-! ### Claim theorems (first group) -/

/-- Claim C9 (confirmed): the SRT timestamp parser maps `1:23:45` to
5025000 ms, `12.345` to 12345 ms, and `1:23:45.678` to 5025678 ms. -/
theorem C9_timestamp_examples :
    SRT.parseTimestamp (strOf "1:23:45") = some 5025000 ∧
      SRT.parseTimestamp (strOf "12.345") = some 12345 ∧
      SRT.parseTimestamp (strOf "1:23:45.678") = some 5025678 :=
  ⟨by decide, by decide, by decide⟩

/-- Claim C2 (confirmed): `parse`, `parseSRT` and `parseVTT` are total
functions into `ParsedSubtitles` — every JS throw site inside the parsers
is modelled explicitly and caught locally, so for every input string and
options value a document is returned whose `type` field is as dispatched
(`parse` always returns the document of the detected format, never an
exception). -/
theorem C2_parse_total :
    ∀ (content : Str) (options : ParseOptions),
      (parseSRT content options).type = .srt ∧
        (parseVTT content options).type = .vtt ∧
        (parse content options).type = (detectFormat content).type :=
  fun content options =>
    ⟨parseSRT_type content options, parseVTT_type content options,
     parse_type_eq_detect content options⟩

/-- Claim C10 (confirmed): the two direct entry points have opposite
default index policies — `parseVTT` without options runs with
`preserveIndexes = true` and attaches a source identifier verbatim, while
`parseSRT` without options runs in non-preserve mode and renumbers
sequentially, ignoring the declared indexes (5, 2 become 1, 2). -/
theorem C10_default_option_polarity :
    (∀ content, parseVTTNoOptions content = parseVTT content ⟨true⟩) ∧
      (∀ content, parseSRTNoOptions content = parseSRT content ⟨false⟩) ∧
      (parseVTTNoOptions vttC10).cues.map SubtitleCue.identifier = [some (strOf "intro")] ∧
      (parseSRTNoOptions srtC6nonseq).cues.map SubtitleCue.index = [1, 2] :=
  ⟨fun _ => rfl, fun _ => rfl, by decide, by decide⟩

/-- Claim C3 (counterexample): the SRT scan is terminated early by a
per-cue error.  In `srtC3cex` the second cue's timestamp line has no
separator token, the thrown member access is caught, and the `catch` block
stops the scan because a cue has already been parsed — the well-formed
third cue `C` never appears. -/
theorem C3_early_break_counterexample :
    (parseSRT srtC3cex ⟨false⟩).cues.map SubtitleCue.text = [strOf "A"] ∧
      ¬ (strOf "C") ∈ (parseSRT srtC3cex ⟨false⟩).cues.map SubtitleCue.text :=
  ⟨by decide, by decide⟩

/-- Claim C3 (amended): per-cue failures other than the SRT thrown-error
path are recovered locally.  A VTT block whose end timestamp is corrupted
by an embedded ellipsis loses exactly that cue with exactly one error
diagnostic and all later well-formed cues are parsed; an SRT per-cue error
that does not throw (both timestamp sides invalid, then an invalid line)
also resynchronizes, and the following well-formed cue is parsed. -/
theorem C3_recovery_amended :
    (parseVTT vttC3ellipsis ⟨true⟩).cues.map
        (fun c => (c.startTime, c.endTime, c.text)) = [(3000, 4000, strOf "Good")] ∧
      ((parseVTT vttC3ellipsis ⟨true⟩).errors.getD []).length = 1 ∧
      ((parseVTT vttC3ellipsis ⟨true⟩).errors.getD []).map ParseError.severity = [.error] ∧
      (parseSRT srtC3resync ⟨false⟩).cues.map SubtitleCue.text = [strOf "Good"] :=
  ⟨by decide, by decide, by decide, by decide⟩

/-- Claim C4 (counterexample): the VTT parser performs no end-before-start
recovery.  A reversed cue is kept with `endTime < startTime` and no
diagnostic at all, so the claimed invariant fails for `parseVTT`. -/
theorem C4_end_before_start_counterexample :
    (parseVTT vttC4cex ⟨true⟩).cues = [⟨1, 4000, 1000, strOf "Hi", none, none, none⟩] ∧
      (parseVTT vttC4cex ⟨true⟩).errors = none :=
  ⟨by decide, by decide⟩

/-- Claim C5 (counterexample): an over-range VTT timestamp is fatal to its
cue.  `99:99:00.000` parses to 362340000 ms > 359999999 ms, the VTT
timestamp parser throws `unusual timestamp value`, and the cue is dropped
with a single `error` diagnostic — not kept with a warning. -/
theorem C5_overrange_counterexample :
    (parseVTT vttC5cex ⟨true⟩).cues = [] ∧
      ((parseVTT vttC5cex ⟨true⟩).errors.getD []).map ParseError.severity = [.error] :=
  ⟨by decide, by decide⟩

/-- Claim C5 (amended): the SRT parser keeps an over-range cue with its
parsed value and attaches a warning (its threshold is actually 24 h, so
anything above ~100 h certainly warns), while the VTT parser rejects any
normalized timestamp above 359999999 ms inside `parseTimestamp`, so the
affected cue is dropped with an `error` diagnostic rather than kept. -/
theorem C5_overrange_amended :
    ((parseSRT srtC5over ⟨false⟩).cues.map (fun c => (c.startTime, c.endTime)) =
        [(360000000, 360001000)] ∧
      ((parseSRT srtC5over ⟨false⟩).errors.getD []).filter
          (fun e => e.message == SRT.msg24h && e.severity == .warning) ≠ []) ∧
      ∀ (s : Str) (h m sec ms : Nat),
        VTT.vttStrict (VTT.normalizeTimestamp s) = some (h, m, sec, ms) →
        359999999 < (h : Int) * 3600000 + m * 60000 + sec * 1000 + ms →
        VTT.parseTimestamp s = none := by
  refine ⟨⟨by decide, by decide⟩, ?_⟩
  intro s h m sec ms hstrict hover
  unfold VTT.parseTimestamp
  rw [hstrict]
  simp only [if_pos hover]

/-- Witness for `C5_overrange_amended`: the general VTT-rejection clause
applied at the concrete token `99:99:00.000`. -/
theorem C5_overrange_amended_witness :
    VTT.parseTimestamp (strOf "99:99:00.000") = none :=
  C5_overrange_amended.2 (strOf "99:99:00.000") 99 99 0 0 (by decide) (by decide)

/-- Claim C6 (counterexample): the auto-number counter is reset to zero
when a cue is dropped for empty text, so a later successful cue repeats an
already-used index — in non-preserve mode the returned indexes are
`[1, 1]`, a duplicate. -/
theorem C6_duplicate_index_counterexample :
    (parseSRT srtC6cex ⟨false⟩).cues.map SubtitleCue.index = [1, 1] :=
  by decide

/-- Claim C8 (counterexample): a bare `WEBVTT` header yields a document
with zero cues and no diagnostic at all, through the top-level `parse`. -/
theorem C8_zero_cue_counterexample :
    (parseNoOptions (strOf "WEBVTT")).cues = [] ∧
      (parseNoOptions (strOf "WEBVTT")).errors = none :=
  ⟨by decide, by decide⟩

/-- Claim C8 (amended): a zero-cue document carries a diagnostic whenever
the top-level `parse` fails to recognise the format: every `unknown`-typed
result carries a non-empty error list, and empty/whitespace-only input
yields exactly the `Empty subtitle content` error document.  (An input that
is dispatched to a parser but contains no cue block — e.g. a bare `WEBVTT`
header — yields zero cues with no diagnostic.) -/
theorem C8_diagnostics_amended :
    (∀ (content : Str) (options : ParseOptions),
        (parse content options).type = .unknown →
        ∃ es, (parse content options).errors = some es ∧ es ≠ []) ∧
      ∀ (content : Str), jsTrim content = [] → ∀ options,
        parse content options =
          ⟨.unknown, [], none, none, some [⟨1, strOf "Empty subtitle content", .error⟩]⟩ := by
  constructor
  · intro content options h
    rw [parse_type_eq_detect] at h
    obtain ⟨es, hes, hne⟩ := detectFormat_unknown_errors content h
    exact ⟨es, by rw [parse_eq_of_unknown content options h]; exact hes, hne⟩
  · intro content h options
    have hd := detectFormat_of_blank content h
    have : (detectFormat content).type = .unknown := by rw [hd]
    rw [parse_eq_of_unknown content options this, hd]

/-- Witness for `C8_diagnostics_amended`: both clauses discharged at
concrete inputs (`garbage` is detected as `unknown`; the empty string is
blank). -/
theorem C8_diagnostics_amended_witness :
    (∃ es, (parse (strOf "garbage") ⟨false⟩).errors = some es ∧ es ≠ []) ∧
      parse (strOf "") ⟨false⟩ =
        ⟨.unknown, [], none, none, some [⟨1, strOf "Empty subtitle content", .error⟩]⟩ :=
  ⟨C8_diagnostics_amended.1 (strOf "garbage") ⟨false⟩ (by decide),
   C8_diagnostics_amended.2 (strOf "") (by decide) ⟨false⟩⟩

/-! ### The SRT ordering invariant (claim C4) -/

/-- Every cue the SRT loop appends satisfies `startTime ≤ endTime`: the
swap step orders the two values before the push, and no other step touches
the cue list. -/
theorem srtLoop_end_ge_start (options : ParseOptions) :
    ∀ (fuel : Nat) (rest : List Str) (idx : Nat) (cues : List SubtitleCue)
      (errors : List ParseError) (ci lsi : Nat) (pc : Bool) (fp : Nat),
      (∀ c ∈ cues, c.startTime ≤ c.endTime) →
      ∀ c ∈ (SRT.srtLoop options fuel rest idx cues errors ci lsi pc fp).1,
        c.startTime ≤ c.endTime := by
  intro fuel
  induction fuel with
  | zero =>
    intro rest idx cues errors ci lsi pc fp hinv
    simpa [SRT.srtLoop] using hinv
  | succ f ih =>
    intro rest idx cues errors ci lsi pc fp hinv
    rw [SRT.srtLoop]
    rcases hsk : (SRT.skipEmpty rest idx).1 with _ | ⟨line, tail⟩
    · simpa using hinv
    · simp only []
      by_cases hA : (isAllDigits (jsTrim line) && tail.head?.any hasTimestamp) = true
      · rw [if_pos hA]
        split <;> exact ih _ _ _ _ _ _ _ _ hinv
      · rw [if_neg hA]
        by_cases hB : ((if (SRT.skipEmpty rest idx).2.2 then false else pc) ||
            containsSub (strOf "-->") (jsTrim line)) = true
        · rw [if_pos hB]
          split
          next htr =>
            by_cases hbrk : (decide (0 < fp + 1) && decide (0 < cues.length)) = true
            · rw [if_pos hbrk]
              exact hinv
            · rw [if_neg hbrk]
              exact ih _ _ _ _ _ _ _ _ hinv
          next tr htr =>
            by_cases hnn : (tr.1.isNone && tr.2.isNone) = true
            · rw [if_pos hnn]
              exact ih _ _ _ _ _ _ _ _ hinv
            · rw [if_neg hnn]
              by_cases hemp : (jsTrim (SRT.collectText (SRT.computeTextAfter (jsTrim line))
                  tail ((SRT.skipEmpty rest idx).2.1 + 1)).1).isEmpty = true
              · rw [if_pos hemp]
                exact ih _ _ _ _ _ _ _ _ hinv
              · rw [if_neg hemp]
                refine ih _ _ _ _ _ _ _ _ ?_
                intro c hc
                rcases List.mem_append.mp hc with h1 | h2
                · exact hinv c h1
                · rcases List.mem_singleton.mp h2 with rfl
                  by_cases hsw : (tr.2.getD (tr.1.getD 0)) < (tr.1.getD 0)
                  · simp only [if_pos hsw]
                    exact le_of_lt hsw
                  · simp only [if_neg hsw]
                    exact le_of_not_lt hsw
        · rw [if_neg hB]
          exact ih _ _ _ _ _ _ _ _ hinv

/-- Claim C4 (amended): every cue returned by `parseSRT` satisfies
`endTime ≥ startTime` — when both sides parse and the end precedes the
start the values are swapped with a warning and the cue is kept.  The VTT
parser performs no such recovery (see the counterexample), so the
invariant holds for `parseSRT` only. -/
theorem C4_invariant_amended :
    (∀ (content : Str) (options : ParseOptions),
        ∀ c ∈ (parseSRT content options).cues, c.startTime ≤ c.endTime) ∧
      (parseSRT srtC4swap ⟨false⟩).cues.map (fun c => (c.startTime, c.endTime)) =
        [(1000, 4000)] ∧
      ((parseSRT srtC4swap ⟨false⟩).errors.getD []).filter
          (fun e => e.message == SRT.msgSwap && e.severity == .warning) ≠ [] := by
  refine ⟨?_, by decide, by decide⟩
  intro content options
  exact srtLoop_end_ge_start options _ _ _ _ _ _ _ _ _
    (fun c hc => absurd hc (List.not_mem_nil c))

/-- Witness for `C4_invariant_amended`: the invariant clause applied to the
swapped cue of the concrete document. -/
theorem C4_invariant_amended_witness :
    (⟨1, 1000, 4000, strOf "Hi", none, none, none⟩ : SubtitleCue).startTime ≤
      (⟨1, 1000, 4000, strOf "Hi", none, none, none⟩ : SubtitleCue).endTime :=
  C4_invariant_amended.1 srtC4swap ⟨false⟩ _ (by decide)

/-- Claim C1 (counterexample): a byte-for-byte canonical SRT text — it is
literally the generator's own output for `csC1` with index preservation —
is not returned unchanged by `generate ∘ parse`: a cue-text line that is a
pure digit run followed by a timestamp-like line is mistaken for a new cue
boundary, the tail of the text is lost, and the thrown-recovery path stops
the scan. -/
theorem C1_roundtrip_counterexample :
    generateSRTDoc (parseSRT (generateSRT csC1 ⟨true⟩) ⟨true⟩) ⟨true⟩ ≠
      generateSRT csC1 ⟨true⟩ := by decide

theorem overlapWarnings_line_shape :
    ∀ (cues : List SubtitleCue) (j0 : Nat) (e : ParseError),
      e ∈ SRT.overlapWarnings cues j0 → ∃ k, k + 1 < cues.length ∧ e.line = (j0 + k) * 2 + 1 := by
  intro cues
  induction cues with
  | nil =>
    intro j0 e he
    simp [SRT.overlapWarnings] at he
  | cons c1 rest ih =>
    cases rest with
    | nil =>
      intro j0 e he
      simp [SRT.overlapWarnings] at he
    | cons c2 rest2 =>
      intro j0 e he
      rw [SRT.overlapWarnings] at he
      rcases List.mem_append.mp he with h1 | h2
      · refine ⟨0, by simp, ?_⟩
        split at h1
        · simp at h1
        · split at h1
          · rcases List.mem_singleton.mp h1 with rfl
            rfl
          · simp at h1
      · obtain ⟨k, hk, hline⟩ := ih (j0 + 1) e h2
        refine ⟨k + 1, ?_, ?_⟩
        · simpa using Nat.succ_lt_succ hk
        · rw [hline]
          ring_nf
  
theorem overlapWarnings_any_iff :
    ∀ (cues : List SubtitleCue) (j0 k : Nat) (hk : k + 1 < cues.length),
      ((SRT.overlapWarnings cues j0).any (fun e => e.line = (j0 + k) * 2 + 1)) = true ↔
        ((cues.get ⟨k + 1, hk⟩).startTime < (cues.get ⟨k, Nat.lt_of_succ_lt hk⟩).endTime ∧
          ¬((cues.get ⟨k, Nat.lt_of_succ_lt hk⟩).startTime = (cues.get ⟨k + 1, hk⟩).startTime ∧
            (cues.get ⟨k, Nat.lt_of_succ_lt hk⟩).endTime = (cues.get ⟨k + 1, hk⟩).endTime)) := by
  intro cues
  induction cues with
  | nil =>
    intro j0 k hk
    simp at hk
  | cons c1 rest ih =>
    cases rest with
    | nil =>
      intro j0 k hk
      simp at hk
    | cons c2 rest2 =>
      intro j0 k hk
      rw [SRT.overlapWarnings]
      rw [List.any_append]
      cases k with
      | zero =>
        have hr : ((SRT.overlapWarnings (c2 :: rest2) (j0 + 1)).any
            (fun e => e.line = (j0 + 0) * 2 + 1)) = false := by
          rw [List.any_eq_false]
          intro e he
          obtain ⟨k', _, hline⟩ := overlapWarnings_line_shape _ _ _ he
          simp only [decide_eq_true_eq, hline]
          omega
        rw [hr, Bool.or_false]
        simp only [List.get]
        by_cases hid : (c1.startTime = c2.startTime ∧ c1.endTime = c2.endTime)
        · rw [if_pos (by simp [hid.1, hid.2])]
          simp [hid]
        · have : (decide (c1.startTime = c2.startTime) && decide (c1.endTime = c2.endTime)) = false := by
            rcases not_and_or.mp hid with h | h <;> simp [h]
          rw [if_neg (by simp [this])]
          by_cases hov : c2.startTime < c1.endTime
          · rw [if_pos (by exact_mod_cast hov)]
            simp [mkErr, hov, hid]
          · rw [if_neg (by exact_mod_cast hov)]
            simp [hov]
      | succ k' =>
        have hl : ((if (decide (c1.startTime = c2.startTime) && decide (c1.endTime = c2.endTime)) = true then
              ([] : List ParseError)
            else if c2.startTime < c1.endTime then [mkErr (j0 * 2 + 1) SRT.msgOverlap .warning]
            else []).any (fun e => e.line = (j0 + (k' + 1)) * 2 + 1)) = false := by
          rw [List.any_eq_false]
          intro e he
          split at he
          · simp at he
          · split at he
            · rcases List.mem_singleton.mp he with rfl
              simp only [decide_eq_true_eq, mkErr]
              omega
            · simp at he
        rw [hl, Bool.false_or]
        have hk' : k' + 1 < (c2 :: rest2).length := by simpa using Nat.lt_of_succ_lt_succ hk
        have := ih (j0 + 1) k' hk'
        have harith : (j0 + 1 + k') * 2 + 1 = (j0 + (k' + 1)) * 2 + 1 := by ring
        rw [harith] at this
        rw [this]
        simp [List.get]

theorem errAppendAux {errors E X : List ParseError} (hu : ∃ u, E = errors ++ u)
    (hx : ∃ t, X = E ++ t) : ∃ w, X = errors ++ w := by
  obtain ⟨u, rfl⟩ := hu
  obtain ⟨t, rfl⟩ := hx
  exact ⟨u ++ t, List.append_assoc _ _ _⟩

theorem errIfAux (errors : List ParseError) (p : Prop) [Decidable p] (x : List ParseError) :
    ∃ u, (if p then errors ++ x else errors) = errors ++ u := by
  split
  · exact ⟨x, rfl⟩
  · exact ⟨[], (List.append_nil _).symm⟩

theorem errIfAux2 (errors : List ParseError) (p : Prop) [Decidable p] (x : List ParseError) :
    ∃ u, (if p then errors else errors ++ x) = errors ++ u := by
  split
  · exact ⟨[], (List.append_nil _).symm⟩
  · exact ⟨x, rfl⟩

theorem srtLoop_errors_mono (options : ParseOptions) :
    ∀ (fuel : Nat) (rest : List Str) (idx : Nat) (cues : List SubtitleCue)
      (errors : List ParseError) (ci lsi : Nat) (pc : Bool) (fp : Nat),
      ∃ t, (SRT.srtLoop options fuel rest idx cues errors ci lsi pc fp).2 = errors ++ t := by
  intro fuel
  induction fuel with
  | zero =>
    intro rest idx cues errors ci lsi pc fp
    exact ⟨[], by simp [SRT.srtLoop]⟩
  | succ f ih =>
    intro rest idx cues errors ci lsi pc fp
    rw [SRT.srtLoop]
    rcases hsk : (SRT.skipEmpty rest idx).1 with _ | ⟨line, tail⟩
    · exact ⟨[], (List.append_nil _).symm⟩
    · simp only []
      by_cases hA : (isAllDigits (jsTrim line) && tail.head?.any hasTimestamp) = true
      · rw [if_pos hA]
        exact errAppendAux (errIfAux errors _ _) (ih _ _ _ _ _ _ _ _)
      · rw [if_neg hA]
        by_cases hB : ((if (SRT.skipEmpty rest idx).2.2 then false else pc) ||
            containsSub (strOf "-->") (jsTrim line)) = true
        · rw [if_pos hB]
          split
          next htr =>
            by_cases hbrk : (decide (0 < fp + 1) && decide (0 < cues.length)) = true
            · rw [if_pos hbrk]
              exact errIfAux2 errors
                ((errors.any fun e => decide (e.line = (SRT.skipEmpty rest idx).2.1 + 1)) = true) _
            · rw [if_neg hbrk]
              exact errAppendAux
                (errIfAux2 errors
                  ((errors.any fun e => decide (e.line = (SRT.skipEmpty rest idx).2.1 + 1)) = true) _)
                (ih _ _ _ _ _ _ _ _)
          next tr htr =>
            by_cases hnn : (tr.1.isNone && tr.2.isNone) = true
            · rw [if_pos hnn]
              exact errAppendAux ⟨_, rfl⟩ (ih _ _ _ _ _ _ _ _)
            · rw [if_neg hnn]
              have h1 : ∃ u, (if tr.1.isNone = true then
                  errors ++ [mkErr ((SRT.skipEmpty rest idx).2.1 + 1)
                    (SRT.msgInvalidStart ((SRT.skipEmpty rest idx).2.1 + 1)) .warning]
                  else errors) = errors ++ u := errIfAux errors _ _
              obtain ⟨u1, hu1⟩ := h1
              rw [hu1]
              have h2 := errIfAux (errors ++ u1) (tr.2.isNone = true)
                [mkErr ((SRT.skipEmpty rest idx).2.1 + 1)
                  (SRT.msgInvalidEnd ((SRT.skipEmpty rest idx).2.1 + 1) (tr.1.getD 0)) .warning]
              obtain ⟨u2, hu2⟩ := h2
              rw [hu2]
              have h3 := errIfAux (errors ++ u1 ++ u2)
                (tr.2.getD (tr.1.getD 0) < tr.1.getD 0)
                [mkErr ((SRT.skipEmpty rest idx).2.1 + 1) SRT.msgSwap .warning]
              obtain ⟨u3, hu3⟩ := h3
              rw [hu3]
              have h4 := errIfAux (errors ++ u1 ++ u2 ++ u3)
                ((decide (86400000 < if tr.2.getD (tr.1.getD 0) < tr.1.getD 0 then
                      tr.2.getD (tr.1.getD 0) else tr.1.getD 0) ||
                  decide (86400000 < if tr.2.getD (tr.1.getD 0) < tr.1.getD 0 then
                      tr.1.getD 0 else tr.2.getD (tr.1.getD 0))) = true)
                [mkErr ((SRT.skipEmpty rest idx).2.1 + 1) SRT.msg24h .warning]
              obtain ⟨u4, hu4⟩ := h4
              rw [hu4]
              have hpre : ∃ w, errors ++ u1 ++ u2 ++ u3 ++ u4 = errors ++ w :=
                ⟨u1 ++ u2 ++ u3 ++ u4, by simp [List.append_assoc]⟩
              split
              · exact errAppendAux (errAppendAux hpre ⟨_, rfl⟩) (ih _ _ _ _ _ _ _ _)
              · exact errAppendAux (errAppendAux hpre (errIfAux _ _ _)) (ih _ _ _ _ _ _ _ _)
        · rw [if_neg hB]
          exact errAppendAux ⟨_, rfl⟩ (ih _ _ _ _ _ _ _ _)

theorem srtLoop_sequential :
    ∀ (fuel : Nat) (rest : List Str) (idx : Nat) (cues : List SubtitleCue)
      (errors : List ParseError) (ci lsi : Nat) (pc : Bool) (fp : Nat),
      ci = cues.length →
      cues.map SubtitleCue.index = List.range' 1 cues.length →
      (∀ e ∈ (SRT.srtLoop ⟨false⟩ fuel rest idx cues errors ci lsi pc fp).2,
          e.message ≠ SRT.msgEmptyText) →
      (SRT.srtLoop ⟨false⟩ fuel rest idx cues errors ci lsi pc fp).1.map SubtitleCue.index =
        List.range' 1 (SRT.srtLoop ⟨false⟩ fuel rest idx cues errors ci lsi pc fp).1.length := by
  intro fuel
  induction fuel with
  | zero =>
    intro rest idx cues errors ci lsi pc fp hci hseq hErr
    simpa [SRT.srtLoop] using hseq
  | succ f ih =>
    intro rest idx cues errors ci lsi pc fp hci hseq hErr
    rw [SRT.srtLoop] at hErr ⊢
    rcases hsk : (SRT.skipEmpty rest idx).1 with _ | ⟨line, tail⟩
    · simpa using hseq
    · rw [hsk] at hErr
      simp only [] at hErr ⊢
      by_cases hA : (isAllDigits (jsTrim line) && tail.head?.any hasTimestamp) = true
      · rw [if_pos hA] at hErr ⊢
        exact ih _ _ _ _ _ _ _ _ hci hseq hErr
      · rw [if_neg hA] at hErr ⊢
        by_cases hB : ((if (SRT.skipEmpty rest idx).2.2 then false else pc) ||
            containsSub (strOf "-->") (jsTrim line)) = true
        · rw [if_pos hB] at hErr ⊢
          split at hErr
          next htr =>
            by_cases hbrk : (decide (0 < fp + 1) && decide (0 < cues.length)) = true
            · rw [if_pos hbrk]
              simpa using hseq
            · rw [if_neg hbrk] at hErr ⊢
              exact ih _ _ _ _ _ _ _ _ hci hseq hErr
          next tr htr =>
            by_cases hnn : (tr.1.isNone && tr.2.isNone) = true
            · rw [if_pos hnn] at hErr ⊢
              exact ih _ _ _ _ _ _ _ _ hci hseq hErr
            · rw [if_neg hnn] at hErr ⊢
              by_cases hemp : (jsTrim (SRT.collectText (SRT.computeTextAfter (jsTrim line))
                  tail ((SRT.skipEmpty rest idx).2.1 + 1)).1).isEmpty = true
              · rw [if_pos hemp] at hErr ⊢
                exfalso
                obtain ⟨t, ht⟩ := srtLoop_errors_mono ⟨false⟩ f
                  (SRT.collectText (SRT.computeTextAfter (jsTrim line)) tail
                    ((SRT.skipEmpty rest idx).2.1 + 1)).2.1
                  (SRT.collectText (SRT.computeTextAfter (jsTrim line)) tail
                    ((SRT.skipEmpty rest idx).2.1 + 1)).2.2
                  cues _ 0 0 false fp
                refine hErr (mkErr (SRT.collectText (SRT.computeTextAfter (jsTrim line)) tail
                    ((SRT.skipEmpty rest idx).2.1 + 1)).2.2 SRT.msgEmptyText .error) ?_ rfl
                rw [ht]
                exact List.mem_append.mpr (Or.inl (List.mem_append.mpr (Or.inr (List.mem_singleton.mpr rfl))))
              · rw [if_neg hemp] at hErr ⊢
                refine ih _ _ _ _ _ _ _ _ ?_ ?_ hErr
                · simp [hci]
                · simp only [List.map_append, hseq, List.length_append,
                    List.length_cons, List.length_nil, Nat.zero_add]
                  simp only [List.map_cons, List.map_nil]
                  rw [List.range'_1_concat]
                  simp [hci, Nat.add_comm]
        · rw [if_neg hB] at hErr ⊢
          exact ih _ _ _ _ _ _ _ _ hci hseq hErr

theorem parseSRT_errors_getD (content : Str) (options : ParseOptions) :
    (parseSRT content options).errors.getD [] =
      (SRT.srtLoop options ((splitLines (jsTrim content)).length + 1)
          (splitLines (jsTrim content)) 0 [] [] 0 0 false 0).2 ++
        SRT.overlapWarnings
          (SRT.srtLoop options ((splitLines (jsTrim content)).length + 1)
            (splitLines (jsTrim content)) 0 [] [] 0 0 false 0).1 0 := by
  simp only [parseSRT]
  split
  next h =>
    rw [List.isEmpty_iff.mp h]
    rfl
  next h => rfl

/-- **C6.** Corrected sequential-index law: in non-preserve mode, whenever no
empty-text diagnostic was recorded (the one recovery path that resets the
internal counter), the index fields of the cues returned by `parseSRT` are
exactly the sequential counter 1, 2, ..., n; and the concrete source with
declared indexes 5 then 2 keeps both cues, reindexed to 1, 2, together with a
single warning reading "Non-sequential subtitle index". -/
theorem C6_sequential_amended :
    (∀ (content : Str),
        (∀ e ∈ (parseSRT content ⟨false⟩).errors.getD [],
            e.message ≠ SRT.msgEmptyText) →
        (parseSRT content ⟨false⟩).cues.map SubtitleCue.index =
          List.range' 1 (parseSRT content ⟨false⟩).cues.length) ∧
    ((parseSRT srtC6nonseq ⟨false⟩).cues.map SubtitleCue.index = [1, 2] ∧
      ((parseSRT srtC6nonseq ⟨false⟩).errors.getD []).map
        (fun e => (e.message, e.severity)) = [(SRT.msgNonSeq, Severity.warning)]) := by
  constructor
  · intro content hErr
    have hget := parseSRT_errors_getD content ⟨false⟩
    have hloopErr : ∀ e ∈ (SRT.srtLoop ⟨false⟩ ((splitLines (jsTrim content)).length + 1)
        (splitLines (jsTrim content)) 0 [] [] 0 0 false 0).2,
        e.message ≠ SRT.msgEmptyText := by
      intro e he
      exact hErr e (by rw [hget]; exact List.mem_append.mpr (Or.inl he))
    have hc : (parseSRT content ⟨false⟩).cues =
        (SRT.srtLoop ⟨false⟩ ((splitLines (jsTrim content)).length + 1)
          (splitLines (jsTrim content)) 0 [] [] 0 0 false 0).1 := rfl
    rw [hc]
    exact srtLoop_sequential ((splitLines (jsTrim content)).length + 1)
      (splitLines (jsTrim content)) 0 [] [] 0 0 false 0 rfl rfl hloopErr
  · exact ⟨by decide, by decide⟩

theorem C6_sequential_amended_witness :
    (parseSRT srtC6nonseq ⟨false⟩).cues.map SubtitleCue.index =
      List.range' 1 (parseSRT srtC6nonseq ⟨false⟩).cues.length :=
  C6_sequential_amended.1 srtC6nonseq (by decide)

/-- **C7.** Parsing the SRT source with cues over [1000,4000] and [3000,5000]
keeps both cues and emits exactly one warning whose message contains
"overlap"; in general, the post-pass adjacency scan over accepted cues flags
the pair at positions k and k+1 exactly when the start of the later cue is
before the end of the earlier one and the two cues are not identical in both
start and end times. -/
theorem C7_overlap_scan :
    ((parseSRT srtC7overlap ⟨false⟩).cues.map (fun c => (c.startTime, c.endTime)) =
        [(1000, 4000), (3000, 5000)] ∧
      ((parseSRT srtC7overlap ⟨false⟩).errors.getD []).countP
        (fun e => containsSub (strOf "overlap") e.message) = 1 ∧
      ((parseSRT srtC7overlap ⟨false⟩).errors.getD []).countP
        (fun e => containsSub (strOf "overlap") e.message &&
          decide (e.severity = Severity.warning)) = 1) ∧
    (∀ (cues : List SubtitleCue) (j0 k : Nat) (hk : k + 1 < cues.length),
      ((SRT.overlapWarnings cues j0).any (fun e => e.line = (j0 + k) * 2 + 1)) = true ↔
        ((cues.get ⟨k + 1, hk⟩).startTime < (cues.get ⟨k, Nat.lt_of_succ_lt hk⟩).endTime ∧
          ¬((cues.get ⟨k, Nat.lt_of_succ_lt hk⟩).startTime = (cues.get ⟨k + 1, hk⟩).startTime ∧
            (cues.get ⟨k, Nat.lt_of_succ_lt hk⟩).endTime = (cues.get ⟨k + 1, hk⟩).endTime))) :=
  ⟨⟨by decide, by decide, by decide⟩, overlapWarnings_any_iff⟩

theorem C7_overlap_scan_witness :
    ((SRT.overlapWarnings c7wCues 0).any (fun e => e.line = (0 + 0) * 2 + 1)) = true :=
  (C7_overlap_scan.2 c7wCues 0 0 (by decide)).mpr (by decide)
